import Mathlib

/-!
The ELF header printer of `main.c`.

`main.c` is one function, `main`: it checks the argument count, opens the
file named by its only argument, reads `sizeof(Elf64_Ehdr)` bytes into an
`Elf64_Ehdr`, checks the four magic bytes and prints eight fields of the
header with `printf`.

The embedding below follows `main` statement by statement.

* The outside world is a parameter: the argument vector, what the file
  system answers for a path (`FileState`), and the byte order of the machine
  the program runs on (`ByteOrder`), which decides how the multi-byte members
  `e_type` and `e_entry` of the overlaid struct are assembled from the bytes
  read.
* A run is summarised by the text written to standard output, the text
  written to standard error, the exit status and the system calls made
  (`Run`).
* `printf` conversions are modelled by `fmt_x` (`%x`), `fmt_02x` (`%02x`),
  `fmt_d` (`%d` of a non-negative value) and `fmt_alt_lx` (`%#lx`).
-/

namespace ElfHeader

/-! ## Bytes, byte order, files -/

/-- An `unsigned char`. -/
abbrev Byte := Fin 256

/-- Byte order of the machine the program runs on. -/
inductive ByteOrder where
  | little
  | big
  deriving DecidableEq, Repr

/-- What the file system holds under a path, as far as `open` and `read`
can tell. -/
inductive FileState where
  /-- The call `open(file, O_RDONLY)` returns `-1`. -/
  | cannotOpen
  /-- The call to `open` succeeds and `read` returns `-1`. -/
  | cannotRead
  /-- The call to `open` succeeds and `read` delivers the leading bytes of
  the content. -/
  | regular (content : List Byte)
  deriving DecidableEq, Repr

/-- System calls on files made by a run, in order. -/
inductive Syscall where
  | open (path : String)
  | read (count : Nat)
  | close
  deriving DecidableEq, Repr

/-- The observable result of a run. -/
structure Run where
  stdout : String
  stderr : String
  exit_code : Nat
  calls : List Syscall
  deriving DecidableEq, Repr

/-! ## Constants of `<elf.h>` used by `main` -/

def EI_MAG0 : Nat := 0
def EI_MAG1 : Nat := 1
def EI_MAG2 : Nat := 2
def EI_MAG3 : Nat := 3
def EI_CLASS : Nat := 4
def EI_DATA : Nat := 5
def EI_VERSION : Nat := 6
def EI_OSABI : Nat := 7
def EI_ABIVERSION : Nat := 8
def EI_NIDENT : Nat := 16

def ELFMAG0 : Byte := 0x7f
def ELFMAG1 : Byte := 0x45
def ELFMAG2 : Byte := 0x4c
def ELFMAG3 : Byte := 0x46

def ELFCLASSNONE : Nat := 0
def ELFCLASS32 : Nat := 1
def ELFCLASS64 : Nat := 2

def ELFDATANONE : Nat := 0
def ELFDATA2LSB : Nat := 1
def ELFDATA2MSB : Nat := 2

def EV_NONE : Nat := 0
def EV_CURRENT : Nat := 1

def ELFOSABI_NONE : Nat := 0
def ELFOSABI_HPUX : Nat := 1
def ELFOSABI_NETBSD : Nat := 2
def ELFOSABI_LINUX : Nat := 3
def ELFOSABI_SOLARIS : Nat := 6
def ELFOSABI_IRIX : Nat := 8
def ELFOSABI_FREEBSD : Nat := 9
def ELFOSABI_TRU64 : Nat := 10
def ELFOSABI_ARM : Nat := 97
def ELFOSABI_STANDALONE : Nat := 255

def ET_NONE : Nat := 0
def ET_REL : Nat := 1
def ET_EXEC : Nat := 2
def ET_DYN : Nat := 3
def ET_CORE : Nat := 4

/-- The value of `sizeof(Elf64_Ehdr)`: 16 identification bytes, then
`e_type` (2), `e_machine` (2), `e_version` (4), `e_entry` (8), `e_phoff` (8),
`e_shoff` (8), `e_flags` (4) and six 2-byte members. -/
def sizeof_ehdr : Nat := 64

/-! ## The struct `Elf64_Ehdr` overlaid on the bytes read -/

/-- An unsigned integer member assembled from its bytes in memory order. -/
def load : ByteOrder → List Byte → Nat
  | .little, bs => bs.foldr (fun b acc => b.val + 256 * acc) 0
  | .big, bs => bs.foldl (fun acc b => 256 * acc + b.val) 0

/-- The member `ehdr.e_ident[i]`. -/
def e_ident (ehdr : List Byte) (i : Nat) : Byte := ehdr.getD i 0

/-- The member `ehdr.e_type`, an `Elf64_Half` at offset 16. -/
def e_type (host : ByteOrder) (ehdr : List Byte) : Nat :=
  load host ((ehdr.drop 16).take 2)

/-- The member `ehdr.e_entry`, an `Elf64_Addr` at offset 24. -/
def e_entry (host : ByteOrder) (ehdr : List Byte) : Nat :=
  load host ((ehdr.drop 24).take 8)

/-! ## `printf` conversions -/

/-- The conversion `%x`: lowercase hexadecimal, no padding. -/
def fmt_x (n : Nat) : String := String.mk (Nat.toDigits 16 n)

/-- The conversion `%02x`: lowercase hexadecimal, zero-padded to two
digits. -/
def fmt_02x (n : Nat) : String :=
  if n < 16 then "0" ++ fmt_x n else fmt_x n

/-- The conversion `%d` of a non-negative value. -/
def fmt_d (n : Nat) : String := String.mk (Nat.toDigits 10 n)

/-- The conversion `%#lx`: the alternative form puts `0x` before a nonzero
result only; zero is converted to `0`. -/
def fmt_alt_lx (n : Nat) : String :=
  if n = 0 then "0" else "0x" ++ fmt_x n

/-! ## The printing part of `main` (lines 62-189) -/

/-- Lines 66-69: the label, the loop over `e_ident` and the newline. -/
def print_magic (ehdr : List Byte) : String :=
  "  Magic:   " ++
    (List.range EI_NIDENT).foldl (fun out i => out ++ fmt_02x (e_ident ehdr i).val ++ " ") "" ++
    "\n"

/-- Lines 73-87: the switch on `e_ident[EI_CLASS]`. -/
def print_class (c : Byte) : String :=
  if c.val = ELFCLASSNONE then "none\n"
  else if c.val = ELFCLASS32 then "ELF32\n"
  else if c.val = ELFCLASS64 then "ELF64\n"
  else "<unknown: " ++ fmt_x c.val ++ ">\n"

/-- Lines 91-105: the switch on `e_ident[EI_DATA]`. -/
def print_data (d : Byte) : String :=
  if d.val = ELFDATANONE then "none\n"
  else if d.val = ELFDATA2LSB then "2's complement, little endian\n"
  else if d.val = ELFDATA2MSB then "2's complement, big endian\n"
  else "<unknown: " ++ fmt_x d.val ++ ">\n"

/-- Lines 109-120: the switch on `e_ident[EI_VERSION]`. -/
def print_version (v : Byte) : String :=
  if v.val = EV_NONE then "0 (invalid)\n"
  else if v.val = EV_CURRENT then fmt_d EV_CURRENT ++ " (current)\n"
  else fmt_d v.val ++ "\n"

/-- Lines 124-159: the switch on `e_ident[EI_OSABI]`. -/
def print_osabi (o : Byte) : String :=
  if o.val = ELFOSABI_NONE then "UNIX - System V\n"
  else if o.val = ELFOSABI_HPUX then "UNIX - HP-UX\n"
  else if o.val = ELFOSABI_NETBSD then "UNIX - NetBSD\n"
  else if o.val = ELFOSABI_LINUX then "UNIX - Linux\n"
  else if o.val = ELFOSABI_SOLARIS then "UNIX - Solaris\n"
  else if o.val = ELFOSABI_IRIX then "UNIX - IRIX\n"
  else if o.val = ELFOSABI_FREEBSD then "UNIX - FreeBSD\n"
  else if o.val = ELFOSABI_TRU64 then "UNIX - TRU64\n"
  else if o.val = ELFOSABI_ARM then "ARM\n"
  else if o.val = ELFOSABI_STANDALONE then "Standalone App\n"
  else "<unknown: " ++ fmt_x o.val ++ ">\n"

/-- Lines 166-186: the switch on `e_type`. -/
def print_type (t : Nat) : String :=
  if t = ET_NONE then "NONE (None)\n"
  else if t = ET_REL then "REL (Relocatable file)\n"
  else if t = ET_EXEC then "EXEC (Executable file)\n"
  else if t = ET_DYN then "DYN (Shared object file)\n"
  else if t = ET_CORE then "CORE (Core file)\n"
  else "<unknown: " ++ fmt_x t ++ ">\n"

/-- Lines 62-189: everything `main` writes to standard output once the
header has passed the checks, in the order of the `printf` calls. -/
def print_header (host : ByteOrder) (ehdr : List Byte) : String :=
  "ELF Header:\n" ++
  print_magic ehdr ++
  "  Class:                             " ++ print_class (e_ident ehdr EI_CLASS) ++
  "  Data:                              " ++ print_data (e_ident ehdr EI_DATA) ++
  "  Version:                           " ++ print_version (e_ident ehdr EI_VERSION) ++
  "  OS/ABI:                            " ++ print_osabi (e_ident ehdr EI_OSABI) ++
  "  ABI Version:                       " ++ fmt_d (e_ident ehdr EI_ABIVERSION).val ++ "\n" ++
  "  Type:                              " ++ print_type (e_type host ehdr) ++
  "  Entry point address:               " ++ fmt_alt_lx (e_entry host ehdr) ++ "\n"

/-! ## `main` -/

/-- The function `main` of `main.c`. `argv` is the whole argument vector
(`argc` is its length), `fs` is what the file system holds under each
path. -/
def main (host : ByteOrder) (argv : List String) (fs : String → FileState) : Run :=
  -- lines 21-25
  if argv.length ≠ 2 then
    { stdout := "", stderr := "Usage: elf_header elf_filename\n", exit_code := 98, calls := [] }
  else
    -- line 28
    let file := argv.getD 1 ""
    -- lines 31-37
    match fs file with
    | .cannotOpen =>
      { stdout := "", stderr := "Error: Can't open file " ++ file ++ "\n", exit_code := 98,
        calls := [.open file] }
    | .cannotRead =>
      -- lines 40-47, `n_read == -1`
      { stdout := "", stderr := "Error: Can't read from file " ++ file ++ "\n", exit_code := 98,
        calls := [.open file, .read sizeof_ehdr, .close] }
    | .regular content =>
      -- line 40: `read` stores at most `sizeof(ehdr)` bytes and returns their number
      let ehdr := content.take sizeof_ehdr
      let n_read := ehdr.length
      -- lines 42-47
      if n_read ≠ sizeof_ehdr then
        { stdout := "", stderr := "Error: Can't read from file " ++ file ++ "\n", exit_code := 98,
          calls := [.open file, .read sizeof_ehdr, .close] }
      -- lines 53-60
      else if e_ident ehdr EI_MAG0 ≠ ELFMAG0 ∨ e_ident ehdr EI_MAG1 ≠ ELFMAG1 ∨
          e_ident ehdr EI_MAG2 ≠ ELFMAG2 ∨ e_ident ehdr EI_MAG3 ≠ ELFMAG3 then
        { stdout := "", stderr := "Error: Not an ELF file - " ++ file ++ "\n", exit_code := 98,
          calls := [.open file, .read sizeof_ehdr, .close] }
      else
        -- lines 62-192
        { stdout := print_header host ehdr, stderr := "", exit_code := 0,
          calls := [.open file, .read sizeof_ehdr, .close] }

/-! ## Reading the output line by line -/

/-- Splits text at newlines; a newline ends a line, and text after the last
newline, if any, is a line too. -/
def linesOf : List Char → List (List Char)
  | [] => []
  | c :: cs =>
    if c = '\n' then [] :: linesOf cs
    else
      match linesOf cs with
      | [] => [[c]]
      | l :: ls => (c :: l) :: ls

/-- The lines of a text. -/
def lines (s : String) : List String := (linesOf s.data).map String.mk

/-! ## Reading numerals back, and other auxiliaries of the statements -/

/-- The value of a decimal digit or of a lowercase hexadecimal digit. -/
def digitValue (c : Char) : Option Nat :=
  if 48 ≤ c.toNat ∧ c.toNat ≤ 57 then some (c.toNat - 48)
  else if 97 ≤ c.toNat ∧ c.toNat ≤ 102 then some (c.toNat - 87)
  else none

/-- Reads a numeral in the given base, most significant digit first; fails on
any character that is not a digit of that base. -/
def readDigits (base : Nat) (cs : List Char) : Option Nat :=
  cs.foldl
    (fun acc c => acc.bind fun a => (digitValue c).bind fun d =>
      if d < base then some (base * a + d) else none)
    (some 0)

/-- The text without its last character: `chomp (v ++ "\n") = v`. -/
def chomp (s : String) : String := String.mk s.data.dropLast

/-- A text made of one line and its newline. -/
def OneLine (s : String) : Prop := ∃ v : String, s = v ++ "\n" ∧ '\n' ∉ v.data

/-! ## Sample files -/

/-- A 64-byte header: the magic bytes, class byte `cls`, data byte `dat`,
version 1, OS/ABI 0 and padding; then the `e_type` bytes `t0 t1`, the machine
and version words, the eight `e_entry` bytes `en` (zero-filled when fewer are
given), and 32 zero bytes. -/
def sampleHeader (cls dat t0 t1 : Byte) (en : List Byte) : List Byte :=
  [0x7f, 0x45, 0x4c, 0x46, cls, dat, 1, 0, 0, 0, 0, 0, 0, 0, 0, 0,
   t0, t1, 0x3e, 0, 1, 0, 0, 0] ++ en.take 8 ++ List.replicate (8 - en.length) 0 ++
  List.replicate 32 0

/-- A header declared big-endian (data byte 2) whose bytes 16-17 are `00 02`
and whose entry bytes are `78 56 34 12 00 00 00 00`. -/
def declaredBig : List Byte := sampleHeader 2 2 0x00 0x02 [0x78, 0x56, 0x34, 0x12, 0, 0, 0, 0]

/-- A header declared little-endian (data byte 1) whose bytes 16-17 are
`02 00` and whose entry bytes are `78 56 34 12 00 00 00 00`. -/
def declaredLittle : List Byte := sampleHeader 2 1 0x02 0x00 [0x78, 0x56, 0x34, 0x12, 0, 0, 0, 0]

/-- A header of class 1 (32-bit) whose bytes 24-27 are zero and whose bytes
28-31 are the given ones. -/
def class32 (hi : List Byte) : List Byte := sampleHeader 1 1 0x02 0x00 ([0, 0, 0, 0] ++ hi)

/-- A relocatable object as a compiler writes it: 64-bit, little-endian,
type bytes `01 00`, entry bytes all zero. -/
def relocatable : List Byte := sampleHeader 2 1 0x01 0x00 [0, 0, 0, 0, 0, 0, 0, 0]

/-- An executable: 64-bit, little-endian, type bytes `02 00`, entry bytes
`20 10 40 00 00 00 00 00`. -/
def executable : List Byte := sampleHeader 2 1 0x02 0x00 [0x20, 0x10, 0x40, 0, 0, 0, 0, 0]

/-- The sample executable with its data-encoding byte (offset 5) changed
from 1 to 2. -/
def dataChanged : List Byte := executable.set 5 2

/-- The sample executable with its class byte (offset 4) changed from 2 to
1. -/
def classChanged : List Byte := executable.set 4 1

/-- The four magic bytes as they stand at the start of a file. -/
def ELFMAG : List Byte := [ELFMAG0, ELFMAG1, ELFMAG2, ELFMAG3]

/-- The run that ends at lines 44-46: the read error. -/
def readFailure (path : String) : Run :=
  { stdout := "", stderr := "Error: Can't read from file " ++ path ++ "\n", exit_code := 98,
    calls := [.open path, .read 64, .close] }

/-- The run that ends at lines 58-59: the magic bytes do not match. -/
def magicFailure (path : String) : Run :=
  { stdout := "", stderr := "Error: Not an ELF file - " ++ path ++ "\n", exit_code := 98,
    calls := [.open path, .read 64, .close] }

/-! ## Basic facts about `main` -/

theorem magic_test (content : List Byte) (h : 4 ≤ content.length) :
    (e_ident (content.take sizeof_ehdr) EI_MAG0 ≠ ELFMAG0 ∨
      e_ident (content.take sizeof_ehdr) EI_MAG1 ≠ ELFMAG1 ∨
      e_ident (content.take sizeof_ehdr) EI_MAG2 ≠ ELFMAG2 ∨
      e_ident (content.take sizeof_ehdr) EI_MAG3 ≠ ELFMAG3) ↔ content.take 4 ≠ ELFMAG := by
  match content, h with
  | a :: b :: c :: d :: rest, _ =>
    simp only [e_ident, sizeof_ehdr, EI_MAG0, EI_MAG1, EI_MAG2, EI_MAG3, ELFMAG]
    simp
    tauto

/-- With two arguments, `main` goes on according to what the file system
holds under the path. -/
theorem main_two_args (host : ByteOrder) (prog path : String) (fs : String → FileState) :
    main host [prog, path] fs =
      (match fs path with
      | .cannotOpen =>
        { stdout := "", stderr := "Error: Can't open file " ++ path ++ "\n", exit_code := 98,
          calls := [.open path] }
      | .cannotRead => readFailure path
      | .regular content =>
        if (content.take sizeof_ehdr).length ≠ sizeof_ehdr then readFailure path
        else if e_ident (content.take sizeof_ehdr) EI_MAG0 ≠ ELFMAG0 ∨
            e_ident (content.take sizeof_ehdr) EI_MAG1 ≠ ELFMAG1 ∨
            e_ident (content.take sizeof_ehdr) EI_MAG2 ≠ ELFMAG2 ∨
            e_ident (content.take sizeof_ehdr) EI_MAG3 ≠ ELFMAG3 then magicFailure path
        else
          { stdout := print_header host (content.take sizeof_ehdr), stderr := "",
            exit_code := 0, calls := [.open path, .read sizeof_ehdr, .close] }) := rfl

theorem main_regular (host : ByteOrder) (prog path : String) (fs : String → FileState)
    (content : List Byte) (hfs : fs path = .regular content) :
    main host [prog, path] fs =
      if content.length < 64 then readFailure path
      else if content.take 4 ≠ ELFMAG then magicFailure path
      else
        { stdout := print_header host (content.take 64), stderr := "", exit_code := 0,
          calls := [.open path, .read 64, .close] } := by
  rw [main_two_args, hfs]
  dsimp only
  by_cases hl : content.length < 64
  · have h : (content.take sizeof_ehdr).length ≠ sizeof_ehdr := by
      simp [sizeof_ehdr]; omega
    rw [if_pos h, if_pos hl]
  · have h : ¬ (content.take sizeof_ehdr).length ≠ sizeof_ehdr := by
      simp [sizeof_ehdr]; omega
    rw [if_neg h, if_neg hl]
    simp only [magic_test content (by omega)]
    rfl

/-! ## Claims C1 and C2: the magic check and the short read -/

/-- C1. For every path and every file content of at least 64 bytes, the run
ends with the not-an-ELF error (standard error is exactly
`Error: Not an ELF file - <path>` and a newline, exit code 98) if and only if
one of the first four bytes differs from `7f 45 4c 46`. -/
theorem C1_magic_check (host : ByteOrder) (prog path : String) (fs : String → FileState)
    (content : List Byte) (hfs : fs path = .regular content) (hlen : 64 ≤ content.length) :
    ((main host [prog, path] fs).stderr = "Error: Not an ELF file - " ++ path ++ "\n" ∧
        (main host [prog, path] fs).exit_code = 98) ↔
      content.take 4 ≠ [0x7f, 0x45, 0x4c, 0x46] := by
  rw [main_regular host prog path fs content hfs, if_neg (by omega)]
  by_cases hm : content.take 4 ≠ ELFMAG
  · rw [if_pos hm]
    exact ⟨fun _ => hm, fun _ => ⟨rfl, rfl⟩⟩
  · rw [if_neg hm]
    exact ⟨fun h => absurd (show (0 : Nat) = 98 from h.2) (by decide), fun h => absurd h hm⟩

theorem C1_magic_check_witness :
    64 ≤ (List.replicate 64 (0 : Byte)).length ∧
    (((main .little ["elf_header", "zeros"] (fun _ => .regular (List.replicate 64 0))).stderr =
          "Error: Not an ELF file - " ++ "zeros" ++ "\n" ∧
        (main .little ["elf_header", "zeros"] (fun _ => .regular (List.replicate 64 0))).exit_code
          = 98) ↔
      (List.replicate 64 (0 : Byte)).take 4 ≠ [0x7f, 0x45, 0x4c, 0x46]) :=
  ⟨by decide,
    C1_magic_check .little "elf_header" "zeros" (fun _ => .regular (List.replicate 64 0))
      (List.replicate 64 0) rfl (by decide)⟩

/-- C2. For every path and every file content shorter than the 64 bytes the
program reads, whatever the bytes are, the run ends with the read error
(standard error is exactly `Error: Can't read from file <path>` and a
newline, exit code 98) and nothing is written to standard output. -/
theorem C2_short_read (host : ByteOrder) (prog path : String) (fs : String → FileState)
    (content : List Byte) (hfs : fs path = .regular content) (hlen : content.length < 64) :
    (main host [prog, path] fs).stderr = "Error: Can't read from file " ++ path ++ "\n" ∧
      (main host [prog, path] fs).exit_code = 98 ∧
      (main host [prog, path] fs).stdout = "" := by
  rw [main_regular host prog path fs content hfs, if_pos hlen]
  exact ⟨rfl, rfl, rfl⟩

theorem C2_short_read_witness :
    ([0x00, 0x01, 0x02] : List Byte).length < 64 ∧
    (main .big ["elf_header", "tiny"] (fun _ => .regular [0x00, 0x01, 0x02])).stderr =
      "Error: Can't read from file " ++ "tiny" ++ "\n" ∧
    (main .big ["elf_header", "tiny"] (fun _ => .regular [0x00, 0x01, 0x02])).exit_code = 98 ∧
    (main .big ["elf_header", "tiny"] (fun _ => .regular [0x00, 0x01, 0x02])).stdout = "" :=
  ⟨by decide,
    C2_short_read .big "elf_header" "tiny" (fun _ => .regular [0x00, 0x01, 0x02])
      [0x00, 0x01, 0x02] rfl (by decide)⟩

/-! ## Lines of the output -/

theorem linesOf_line (a rest : List Char) (h : '\n' ∉ a) :
    linesOf (a ++ '\n' :: rest) = a :: linesOf rest := by
  induction a with
  | nil => simp [linesOf]
  | cons c a ih =>
    have hc : c ≠ '\n' := fun e => h (by simp [e])
    have ha : '\n' ∉ a := fun e => h (by simp [e])
    simp [linesOf, hc, ih ha]

theorem lines_one (a rest : String) (h : '\n' ∉ a.data) :
    lines (a ++ ("\n" ++ rest)) = a :: lines rest := by
  have e : (a ++ ("\n" ++ rest)).data = a.data ++ '\n' :: rest.data := by
    simp only [String.data_append]; rfl
  simp only [lines, e, linesOf_line _ _ h, List.map_cons]

theorem lines_two (a b rest : String) (ha : '\n' ∉ a.data) (hb : '\n' ∉ b.data) :
    lines (a ++ (b ++ ("\n" ++ rest))) = (a ++ b) :: lines rest := by
  rw [← String.append_assoc, lines_one]
  simp only [String.data_append, List.mem_append, not_or]
  exact ⟨ha, hb⟩

theorem chomp_newline (v : String) : chomp (v ++ "\n") = v := by
  have e : (v ++ "\n").data = v.data ++ ['\n'] := by
    simp [String.data_append]
  simp only [chomp, e, List.dropLast_concat]

theorem digitChar_ne_newline (d : Nat) : Nat.digitChar d ≠ '\n' := by
  by_cases h : d < 16
  · interval_cases d <;> decide
  · unfold Nat.digitChar
    iterate 16 rw [if_neg (by omega)]
    decide

theorem toDigitsCore_no_newline (base : Nat) :
    ∀ (fuel n : Nat) (ds : List Char), '\n' ∉ ds → '\n' ∉ Nat.toDigitsCore base fuel n ds := by
  intro fuel
  induction fuel with
  | zero => intro n ds h; simpa [Nat.toDigitsCore] using h
  | succ fuel ih =>
    intro n ds h
    have hd : '\n' ∉ Nat.digitChar (n % base) :: ds := by
      simp only [List.mem_cons, not_or]
      exact ⟨fun e => digitChar_ne_newline _ e.symm, h⟩
    unfold Nat.toDigitsCore
    dsimp only
    split
    · exact hd
    · exact ih _ _ hd

theorem fmt_x_no_newline (n : Nat) : '\n' ∉ (fmt_x n).data :=
  toDigitsCore_no_newline 16 _ _ _ (by simp)

theorem fmt_d_no_newline (n : Nat) : '\n' ∉ (fmt_d n).data :=
  toDigitsCore_no_newline 10 _ _ _ (by simp)

theorem fmt_02x_no_newline (n : Nat) : '\n' ∉ (fmt_02x n).data := by
  unfold fmt_02x
  split
  · simp only [String.data_append, List.mem_append, not_or]
    exact ⟨by decide, fmt_x_no_newline n⟩
  · exact fmt_x_no_newline n

theorem fmt_alt_lx_no_newline (n : Nat) : '\n' ∉ (fmt_alt_lx n).data := by
  unfold fmt_alt_lx
  split
  · decide
  · simp only [String.data_append, List.mem_append, not_or]
    exact ⟨by decide, fmt_x_no_newline n⟩

theorem oneLine_literal (v : String) (h : '\n' ∉ v.data) : OneLine (v ++ "\n") :=
  ⟨v, rfl, h⟩

theorem oneLine_unknown (n : Nat) : OneLine ("<unknown: " ++ fmt_x n ++ ">\n") := by
  refine ⟨"<unknown: " ++ fmt_x n ++ ">", ?_, ?_⟩
  · simp only [String.append_assoc]; rfl
  · simp only [String.data_append, List.mem_append, not_or]
    exact ⟨⟨by decide, fmt_x_no_newline n⟩, by decide⟩

theorem oneLine_print_class (c : Byte) : OneLine (print_class c) := by
  unfold print_class
  repeat' split
  · exact oneLine_literal "none" (by decide)
  · exact oneLine_literal "ELF32" (by decide)
  · exact oneLine_literal "ELF64" (by decide)
  · exact oneLine_unknown _

theorem oneLine_print_data (d : Byte) : OneLine (print_data d) := by
  unfold print_data
  repeat' split
  · exact oneLine_literal "none" (by decide)
  · exact oneLine_literal "2's complement, little endian" (by decide)
  · exact oneLine_literal "2's complement, big endian" (by decide)
  · exact oneLine_unknown _

theorem oneLine_print_version (v : Byte) : OneLine (print_version v) := by
  unfold print_version
  repeat' split
  · exact oneLine_literal "0 (invalid)" (by decide)
  · exact oneLine_literal "1 (current)" (by decide)
  · exact oneLine_literal _ (fmt_d_no_newline _)

theorem oneLine_print_osabi (o : Byte) : OneLine (print_osabi o) := by
  unfold print_osabi
  repeat' split
  · exact oneLine_literal "UNIX - System V" (by decide)
  · exact oneLine_literal "UNIX - HP-UX" (by decide)
  · exact oneLine_literal "UNIX - NetBSD" (by decide)
  · exact oneLine_literal "UNIX - Linux" (by decide)
  · exact oneLine_literal "UNIX - Solaris" (by decide)
  · exact oneLine_literal "UNIX - IRIX" (by decide)
  · exact oneLine_literal "UNIX - FreeBSD" (by decide)
  · exact oneLine_literal "UNIX - TRU64" (by decide)
  · exact oneLine_literal "ARM" (by decide)
  · exact oneLine_literal "Standalone App" (by decide)
  · exact oneLine_unknown _

theorem oneLine_print_type (t : Nat) : OneLine (print_type t) := by
  unfold print_type
  repeat' split
  · exact oneLine_literal "NONE (None)" (by decide)
  · exact oneLine_literal "REL (Relocatable file)" (by decide)
  · exact oneLine_literal "EXEC (Executable file)" (by decide)
  · exact oneLine_literal "DYN (Shared object file)" (by decide)
  · exact oneLine_literal "CORE (Core file)" (by decide)
  · exact oneLine_unknown _

theorem magic_loop_no_newline (ehdr : List Byte) (l : List Nat) :
    ∀ acc : String, '\n' ∉ acc.data →
      '\n' ∉ (l.foldl (fun out i => out ++ fmt_02x (e_ident ehdr i).val ++ " ") acc).data := by
  induction l with
  | nil => intro acc h; simpa using h
  | cons i l ih =>
    intro acc h
    rw [List.foldl_cons]
    apply ih
    simp only [String.data_append, List.mem_append, not_or]
    exact ⟨⟨h, fmt_02x_no_newline _⟩, by decide⟩

theorem oneLine_print_magic (ehdr : List Byte) : OneLine (print_magic ehdr) := by
  unfold print_magic
  apply oneLine_literal
  simp only [String.data_append, List.mem_append, not_or]
  exact ⟨by decide, magic_loop_no_newline ehdr _ "" (by decide)⟩

/-- The output for a header that passed the checks, line by line. -/
theorem lines_print_header (host : ByteOrder) (ehdr : List Byte) :
    lines (print_header host ehdr) =
      [ "ELF Header:",
        chomp (print_magic ehdr),
        "  Class:                             " ++ chomp (print_class (e_ident ehdr EI_CLASS)),
        "  Data:                              " ++ chomp (print_data (e_ident ehdr EI_DATA)),
        "  Version:                           " ++
          chomp (print_version (e_ident ehdr EI_VERSION)),
        "  OS/ABI:                            " ++ chomp (print_osabi (e_ident ehdr EI_OSABI)),
        "  ABI Version:                       " ++ fmt_d (e_ident ehdr EI_ABIVERSION).val,
        "  Type:                              " ++ chomp (print_type (e_type host ehdr)),
        "  Entry point address:               " ++ fmt_alt_lx (e_entry host ehdr) ] := by
  obtain ⟨vm, hm, nm⟩ := oneLine_print_magic ehdr
  obtain ⟨vc, hc, nc⟩ := oneLine_print_class (e_ident ehdr EI_CLASS)
  obtain ⟨vd, hd, nd⟩ := oneLine_print_data (e_ident ehdr EI_DATA)
  obtain ⟨vv, hv, nv⟩ := oneLine_print_version (e_ident ehdr EI_VERSION)
  obtain ⟨vo, ho, no⟩ := oneLine_print_osabi (e_ident ehdr EI_OSABI)
  obtain ⟨vt, ht, nt⟩ := oneLine_print_type (e_type host ehdr)
  have hb : "ELF Header:\n" = "ELF Header:" ++ "\n" := by decide
  unfold print_header
  rw [hm, hc, hd, hv, ho, ht, hb]
  simp only [chomp_newline, String.append_assoc]
  rw [lines_one _ _ (by decide), lines_one _ _ nm, lines_two _ _ _ (by decide) nc,
    lines_two _ _ _ (by decide) nd, lines_two _ _ _ (by decide) nv,
    lines_two _ _ _ (by decide) no, lines_two _ _ _ (by decide) (fmt_d_no_newline _),
    lines_two _ _ _ (by decide) nt]
  rw [← String.append_empty "\n", lines_two _ _ _ (by decide) (fmt_alt_lx_no_newline _)]
  rfl

/-! ## What the conversions `%x` and `%d` write -/

theorem digitValue_digitChar (d : Nat) (h : d < 16) : digitValue (Nat.digitChar d) = some d := by
  interval_cases d <;> decide

theorem toDigitsCore_append (base : Nat) :
    ∀ (fuel n : Nat) (ds : List Char),
      Nat.toDigitsCore base fuel n ds = Nat.toDigitsCore base fuel n [] ++ ds := by
  intro fuel
  induction fuel with
  | zero => intro n ds; simp [Nat.toDigitsCore]
  | succ fuel ih =>
    intro n ds
    unfold Nat.toDigitsCore
    dsimp only
    split
    · simp
    · rw [ih _ (_ :: ds), ih _ [_]]; simp

theorem readDigits_concat (base : Nat) (cs : List Char) (c : Char) (a d : Nat)
    (h : readDigits base cs = some a) (hd : digitValue c = some d) (hb : d < base) :
    readDigits base (cs ++ [c]) = some (base * a + d) := by
  unfold readDigits at h ⊢
  rw [List.foldl_append, h]
  simp [hd, hb]

theorem readDigits_toDigitsCore (base : Nat) (h2 : 2 ≤ base) (h16 : base ≤ 16) :
    ∀ (n fuel : Nat), n < fuel →
      readDigits base (Nat.toDigitsCore base fuel n []) = some n := by
  intro n
  induction n using Nat.strong_induction_on with
  | _ n ih =>
    intro fuel hf
    obtain ⟨f, rfl⟩ : ∃ f, fuel = f + 1 := ⟨fuel - 1, by omega⟩
    have hmod : n % base < base := Nat.mod_lt _ (by omega)
    unfold Nat.toDigitsCore
    dsimp only
    split
    · rename_i h0
      have hn : n < base := (Nat.div_eq_zero_iff (by omega)).mp h0
      have e := readDigits_concat base [] (Nat.digitChar (n % base)) 0 (n % base) rfl
        (digitValue_digitChar _ (by omega)) hmod
      rw [Nat.mod_eq_of_lt hn] at e ⊢
      simpa using e
    · rename_i h0
      have hpos : 0 < n / base := Nat.pos_of_ne_zero h0
      have hlt : n / base < n := Nat.div_lt_self (by
        rcases Nat.eq_zero_or_pos n with h | h
        · subst h; simp at hpos
        · exact h) (by omega)
      rw [toDigitsCore_append]
      have e := readDigits_concat base _ (Nat.digitChar (n % base)) (n / base) (n % base)
        (ih (n / base) hlt f (by omega)) (digitValue_digitChar _ (by omega)) hmod
      rw [e, Nat.div_add_mod]

theorem toDigitsCore_ne_nil (base : Nat) (fuel n : Nat) (ds : List Char) :
    Nat.toDigitsCore base (fuel + 1) n ds ≠ [] := by
  rw [toDigitsCore_append]
  unfold Nat.toDigitsCore
  dsimp only
  split
  · simp
  · rw [toDigitsCore_append]; simp

theorem toDigitsCore_head (base : Nat) (h2 : 2 ≤ base) (h16 : base ≤ 16) :
    ∀ (n fuel : Nat), n < fuel → n ≠ 0 →
      (Nat.toDigitsCore base fuel n []).head? ≠ some '0' := by
  intro n
  induction n using Nat.strong_induction_on with
  | _ n ih =>
    intro fuel hf hn0
    obtain ⟨f, rfl⟩ : ∃ f, fuel = f + 1 := ⟨fuel - 1, by omega⟩
    unfold Nat.toDigitsCore
    dsimp only
    split
    · rename_i h0
      have hn : n < base := (Nat.div_eq_zero_iff (by omega)).mp h0
      rw [Nat.mod_eq_of_lt hn]
      have : n < 16 := by omega
      interval_cases n <;> first | exact absurd rfl hn0 | decide
    · rename_i h0
      have hlt : n / base < n := Nat.div_lt_self (by omega) (by omega)
      obtain ⟨g, rfl⟩ : ∃ g, f = g + 1 := ⟨f - 1, by omega⟩
      rw [toDigitsCore_append]
      have hne := toDigitsCore_ne_nil base g (n / base) []
      have := ih (n / base) hlt (g + 1) (by omega) h0
      cases hx : Nat.toDigitsCore base (g + 1) (n / base) [] with
      | nil => exact absurd hx hne
      | cons x xs => rw [hx] at this; simpa using this

/-- The text of `%x` is the numeral of the value in base 16, written with the
digits `0`-`9`, `a`-`f`, without a leading zero unless the value is zero. -/
theorem fmt_x_reads_back (n : Nat) :
    readDigits 16 (fmt_x n).data = some n ∧ (n ≠ 0 → (fmt_x n).data.head? ≠ some '0') ∧
      fmt_x 0 = "0" :=
  ⟨readDigits_toDigitsCore 16 (by norm_num) (by norm_num) n (n + 1) (by omega),
    toDigitsCore_head 16 (by norm_num) (by norm_num) n (n + 1) (by omega), by decide⟩

/-- The text of `%d` is the numeral of the value in base 10, without a
leading zero unless the value is zero. -/
theorem fmt_d_reads_back (n : Nat) :
    readDigits 10 (fmt_d n).data = some n ∧ (n ≠ 0 → (fmt_d n).data.head? ≠ some '0') ∧
      fmt_d 0 = "0" :=
  ⟨readDigits_toDigitsCore 10 (by norm_num) (by norm_num) n (n + 1) (by omega),
    toDigitsCore_head 10 (by norm_num) (by norm_num) n (n + 1) (by omega), by decide⟩

/-! ## The members of the struct in terms of the file content -/

theorem field_of_take (l : List Byte) (k n : Nat) (h : k + n ≤ 64) :
    ((l.take 64).drop k).take n = (l.drop k).take n := by
  rw [List.drop_take, List.take_take, Nat.min_eq_left (by omega)]

theorem e_ident_take (l : List Byte) (i : Nat) (h : i < 64) :
    e_ident (l.take 64) i = l.getD i 0 := by
  simp only [e_ident, List.getD_eq_getElem?_getD, List.getElem?_take_of_lt h]

theorem e_type_take (host : ByteOrder) (l : List Byte) :
    e_type host (l.take 64) = load host ((l.drop 16).take 2) := by
  simp only [e_type, field_of_take l 16 2 (by omega)]

theorem e_entry_take (host : ByteOrder) (l : List Byte) :
    e_entry host (l.take 64) = load host ((l.drop 24).take 8) := by
  simp only [e_entry, field_of_take l 24 8 (by omega)]

/-- The lines written to standard output for a file of at least 64 bytes that
starts with the magic bytes. -/
theorem lines_valid (host : ByteOrder) (prog path : String) (fs : String → FileState)
    (content : List Byte) (hfs : fs path = .regular content) (hlen : 64 ≤ content.length)
    (hmag : content.take 4 = ELFMAG) :
    lines (main host [prog, path] fs).stdout =
      [ "ELF Header:",
        chomp (print_magic (content.take 64)),
        "  Class:                             " ++ chomp (print_class (content.getD 4 0)),
        "  Data:                              " ++ chomp (print_data (content.getD 5 0)),
        "  Version:                           " ++ chomp (print_version (content.getD 6 0)),
        "  OS/ABI:                            " ++ chomp (print_osabi (content.getD 7 0)),
        "  ABI Version:                       " ++ fmt_d (content.getD 8 0).val,
        "  Type:                              " ++
          chomp (print_type (load host ((content.drop 16).take 2))),
        "  Entry point address:               " ++
          fmt_alt_lx (load host ((content.drop 24).take 8)) ] := by
  rw [main_regular host prog path fs content hfs, if_neg (by omega), if_neg (by simpa using hmag)]
  simp only [lines_print_header, EI_CLASS, EI_DATA, EI_VERSION, EI_OSABI, EI_ABIVERSION]
  rw [e_ident_take _ 4 (by omega), e_ident_take _ 5 (by omega), e_ident_take _ 6 (by omega),
    e_ident_take _ 7 (by omega), e_ident_take _ 8 (by omega), e_type_take, e_entry_take]

/-- Overwriting one identification byte past the magic keeps a file valid. -/
theorem set_keeps_valid (content : List Byte) (k : Nat) (b : Byte) (hk : 4 ≤ k)
    (hlen : 64 ≤ content.length) (hmag : content.take 4 = ELFMAG) :
    64 ≤ (content.set k b).length ∧ (content.set k b).take 4 = ELFMAG := by
  refine ⟨by simpa using hlen, ?_⟩
  rw [List.set_take, hmag]
  exact List.set_eq_of_length_le (by simpa [ELFMAG] using hk)

/-! ## Claim C3: the object type -/

/-- C3, as the code has it. For every file of at least 64 bytes that starts
with the magic bytes, the Type line shows the 2-byte field at offsets 16-17
assembled in the byte order of the machine running the program, and it stays
the same when the data-encoding byte (offset 5) is replaced by any other
value. -/
theorem C3_type_in_host_order (host : ByteOrder) (prog path : String)
    (fs : String → FileState) (content : List Byte) (hfs : fs path = .regular content)
    (hlen : 64 ≤ content.length) (hmag : content.take 4 = [0x7f, 0x45, 0x4c, 0x46]) :
    (lines (main host [prog, path] fs).stdout)[7]? =
        some ("  Type:                              " ++
          chomp (print_type (load host ((content.drop 16).take 2)))) ∧
      (∀ d : Byte,
        (lines (main host [prog, path] (fun _ => .regular (content.set 5 d))).stdout)[7]? =
          (lines (main host [prog, path] fs).stdout)[7]?) ∧
      (host = .little → (content.drop 16).take 2 = [0x02, 0x00] →
        (lines (main host [prog, path] fs).stdout)[7]? =
          some "  Type:                              EXEC (Executable file)") ∧
      (host = .big → (content.drop 16).take 2 = [0x00, 0x02] →
        (lines (main host [prog, path] fs).stdout)[7]? =
          some "  Type:                              EXEC (Executable file)") := by
  have h1 := lines_valid host prog path fs content hfs hlen hmag
  have h7 : (lines (main host [prog, path] fs).stdout)[7]? =
      some ("  Type:                              " ++
        chomp (print_type (load host ((content.drop 16).take 2)))) := by
    rw [h1]; simp only [List.getElem?_cons_succ, List.getElem?_cons_zero]
  refine ⟨h7, fun d => ?_, fun hh hb => ?_, fun hh hb => ?_⟩
  · obtain ⟨hl, hm⟩ := set_keeps_valid content 5 d (by omega) hlen hmag
    rw [h1, lines_valid host prog path (fun _ => .regular (content.set 5 d)) _ rfl hl hm,
      List.drop_set_of_lt d content (by omega)]
    simp only [List.getElem?_cons_succ, List.getElem?_cons_zero]
  · rw [h7, hh, hb]; decide
  · rw [h7, hh, hb]; decide

theorem C3_type_in_host_order_witness :
    64 ≤ declaredLittle.length ∧ declaredLittle.take 4 = [0x7f, 0x45, 0x4c, 0x46] ∧
    ((lines (main .little ["elf_header", "a.out"] (fun _ => .regular declaredLittle)).stdout)[7]? =
        some ("  Type:                              " ++
          chomp (print_type (load .little ((declaredLittle.drop 16).take 2)))) ∧
      (∀ d : Byte,
        (lines (main .little ["elf_header", "a.out"]
            (fun _ => .regular (declaredLittle.set 5 d))).stdout)[7]? =
          (lines (main .little ["elf_header", "a.out"]
            (fun _ => .regular declaredLittle)).stdout)[7]?) ∧
      (ByteOrder.little = .little → (declaredLittle.drop 16).take 2 = [0x02, 0x00] →
        (lines (main .little ["elf_header", "a.out"]
            (fun _ => .regular declaredLittle)).stdout)[7]? =
          some "  Type:                              EXEC (Executable file)") ∧
      (ByteOrder.little = .big → (declaredLittle.drop 16).take 2 = [0x00, 0x02] →
        (lines (main .little ["elf_header", "a.out"]
            (fun _ => .regular declaredLittle)).stdout)[7]? =
          some "  Type:                              EXEC (Executable file)")) :=
  ⟨by decide, by decide,
    C3_type_in_host_order .little "elf_header" "a.out" (fun _ => .regular declaredLittle)
      declaredLittle rfl (by decide) (by decide)⟩

/-- C3 fails as stated: on a little-endian machine a header declared
big-endian whose bytes 16-17 are `00 02` is accepted and its Type line is
`<unknown: 200>`, not `EXEC (Executable file)`; on a big-endian machine the
same happens to a header declared little-endian whose bytes 16-17 are
`02 00`. -/
theorem C3_counterexample :
    (declaredBig.getD 5 0 = 2 ∧ (declaredBig.drop 16).take 2 = [0x00, 0x02] ∧
      (main .little ["elf_header", "a.out"] (fun _ => .regular declaredBig)).exit_code = 0 ∧
      (lines (main .little ["elf_header", "a.out"] (fun _ => .regular declaredBig)).stdout)[7]? =
        some "  Type:                              <unknown: 200>" ∧
      (lines (main .little ["elf_header", "a.out"] (fun _ => .regular declaredBig)).stdout)[7]? ≠
        some "  Type:                              EXEC (Executable file)") ∧
    (declaredLittle.getD 5 0 = 1 ∧ (declaredLittle.drop 16).take 2 = [0x02, 0x00] ∧
      (main .big ["elf_header", "a.out"] (fun _ => .regular declaredLittle)).exit_code = 0 ∧
      (lines (main .big ["elf_header", "a.out"] (fun _ => .regular declaredLittle)).stdout)[7]? =
        some "  Type:                              <unknown: 200>" ∧
      (lines (main .big ["elf_header", "a.out"] (fun _ => .regular declaredLittle)).stdout)[7]? ≠
        some "  Type:                              EXEC (Executable file)") := by
  decide

/-! ## Claims C4 and C5: the entry point -/

theorem load_big_lt (bs : List Byte) :
    ∀ (k acc : Nat), acc < 256 ^ k →
      bs.foldl (fun acc b => 256 * acc + b.val) acc < 256 ^ (k + bs.length) := by
  induction bs with
  | nil => intro k acc h; simpa using h
  | cons b bs ih =>
    intro k acc h
    have hb := b.isLt
    have h1 : 256 * acc + b.val < 256 ^ (k + 1) := by
      rw [pow_succ]; omega
    have := ih (k + 1) _ h1
    rw [List.foldl_cons, List.length_cons]
    rw [show k + (bs.length + 1) = k + 1 + bs.length by omega]
    exact this

theorem load_little_lt (bs : List Byte) :
    bs.foldr (fun b acc => b.val + 256 * acc) 0 < 256 ^ bs.length := by
  induction bs with
  | nil => simp
  | cons b bs ih =>
    have hb := b.isLt
    rw [List.foldr_cons, List.length_cons, pow_succ]
    omega

/-- A member of `n` bytes holds a value below `256 ^ n`. -/
theorem load_lt (host : ByteOrder) (bs : List Byte) : load host bs < 256 ^ bs.length := by
  cases host with
  | little => exact load_little_lt bs
  | big => simpa [load] using load_big_lt bs 0 0 (by norm_num)

theorem entry_line (host : ByteOrder) (prog path : String) (fs : String → FileState)
    (content : List Byte) (hfs : fs path = .regular content) (hlen : 64 ≤ content.length)
    (hmag : content.take 4 = ELFMAG) :
    (lines (main host [prog, path] fs).stdout)[8]? =
      some ("  Entry point address:               " ++
        fmt_alt_lx (load host ((content.drop 24).take 8))) := by
  rw [lines_valid host prog path fs content hfs hlen hmag]
  simp only [List.getElem?_cons_succ, List.getElem?_cons_zero]

theorem entry_line_set (host : ByteOrder) (prog path : String) (fs : String → FileState)
    (content : List Byte) (hfs : fs path = .regular content) (hlen : 64 ≤ content.length)
    (hmag : content.take 4 = ELFMAG) (k : Nat) (hk : 4 ≤ k) (hk2 : k < 24) (b : Byte) :
    (lines (main host [prog, path] (fun _ => .regular (content.set k b))).stdout)[8]? =
      (lines (main host [prog, path] fs).stdout)[8]? := by
  obtain ⟨hl, hm⟩ := set_keeps_valid content k b hk hlen hmag
  rw [entry_line host prog path fs content hfs hlen hmag,
    entry_line host prog path (fun _ => .regular (content.set k b)) _ rfl hl hm,
    List.drop_set_of_lt b content hk2]

/-- C4, as the code has it. For every file of at least 64 bytes that starts
with the magic bytes, the Entry point line shows the eight bytes at offsets
24-31 assembled in the byte order of the machine running the program, and it
stays the same when the data-encoding byte (offset 5) is replaced by any
other value. On a little-endian machine the bytes
`78 56 34 12 00 00 00 00` are shown as `0x12345678`, on a big-endian machine
as `0x7856341200000000`. -/
theorem C4_entry_in_host_order (host : ByteOrder) (prog path : String)
    (fs : String → FileState) (content : List Byte) (hfs : fs path = .regular content)
    (hlen : 64 ≤ content.length) (hmag : content.take 4 = [0x7f, 0x45, 0x4c, 0x46]) :
    (lines (main host [prog, path] fs).stdout)[8]? =
        some ("  Entry point address:               " ++
          fmt_alt_lx (load host ((content.drop 24).take 8))) ∧
      (∀ d : Byte,
        (lines (main host [prog, path] (fun _ => .regular (content.set 5 d))).stdout)[8]? =
          (lines (main host [prog, path] fs).stdout)[8]?) ∧
      (host = .little →
        (content.drop 24).take 8 = [0x78, 0x56, 0x34, 0x12, 0x00, 0x00, 0x00, 0x00] →
        (lines (main host [prog, path] fs).stdout)[8]? =
          some "  Entry point address:               0x12345678") ∧
      (host = .big →
        (content.drop 24).take 8 = [0x78, 0x56, 0x34, 0x12, 0x00, 0x00, 0x00, 0x00] →
        (lines (main host [prog, path] fs).stdout)[8]? =
          some "  Entry point address:               0x7856341200000000") := by
  have h8 := entry_line host prog path fs content hfs hlen hmag
  refine ⟨h8, fun d => ?_, fun hh hb => ?_, fun hh hb => ?_⟩
  · exact entry_line_set host prog path fs content hfs hlen hmag 5 (by omega) (by omega) d
  · rw [h8, hh, hb]; decide
  · rw [h8, hh, hb]; decide

theorem C4_entry_in_host_order_witness :
    64 ≤ declaredBig.length ∧ declaredBig.take 4 = [0x7f, 0x45, 0x4c, 0x46] ∧
    ((lines (main .little ["elf_header", "a.out"] (fun _ => .regular declaredBig)).stdout)[8]? =
        some ("  Entry point address:               " ++
          fmt_alt_lx (load .little ((declaredBig.drop 24).take 8))) ∧
      (∀ d : Byte,
        (lines (main .little ["elf_header", "a.out"]
            (fun _ => .regular (declaredBig.set 5 d))).stdout)[8]? =
          (lines (main .little ["elf_header", "a.out"]
            (fun _ => .regular declaredBig)).stdout)[8]?) ∧
      (ByteOrder.little = .little →
        (declaredBig.drop 24).take 8 = [0x78, 0x56, 0x34, 0x12, 0x00, 0x00, 0x00, 0x00] →
        (lines (main .little ["elf_header", "a.out"]
            (fun _ => .regular declaredBig)).stdout)[8]? =
          some "  Entry point address:               0x12345678") ∧
      (ByteOrder.little = .big →
        (declaredBig.drop 24).take 8 = [0x78, 0x56, 0x34, 0x12, 0x00, 0x00, 0x00, 0x00] →
        (lines (main .little ["elf_header", "a.out"]
            (fun _ => .regular declaredBig)).stdout)[8]? =
          some "  Entry point address:               0x7856341200000000")) :=
  ⟨by decide, by decide,
    C4_entry_in_host_order .little "elf_header" "a.out" (fun _ => .regular declaredBig)
      declaredBig rfl (by decide) (by decide)⟩

/-- C4 fails as stated: the two 64-bit headers with entry bytes
`78 56 34 12 00 00 00 00`, one declared little-endian and one declared
big-endian, get the same Entry point line. On a little-endian machine both
show `0x12345678`, so the big-endian one is not assembled
most-significant-byte-first; on a big-endian machine both show
`0x7856341200000000`, so the little-endian one does not decode to
`0x12345678`. -/
theorem C4_counterexample :
    (declaredLittle.drop 24).take 8 = [0x78, 0x56, 0x34, 0x12, 0x00, 0x00, 0x00, 0x00] ∧
    (declaredBig.drop 24).take 8 = [0x78, 0x56, 0x34, 0x12, 0x00, 0x00, 0x00, 0x00] ∧
    declaredLittle.getD 4 0 = 2 ∧ declaredBig.getD 4 0 = 2 ∧
    declaredLittle.getD 5 0 = 1 ∧ declaredBig.getD 5 0 = 2 ∧
    (lines (main .little ["elf_header", "a.out"] (fun _ => .regular declaredBig)).stdout)[8]? =
      some "  Entry point address:               0x12345678" ∧
    (lines (main .little ["elf_header", "a.out"] (fun _ => .regular declaredLittle)).stdout)[8]? =
      some "  Entry point address:               0x12345678" ∧
    (lines (main .big ["elf_header", "a.out"] (fun _ => .regular declaredBig)).stdout)[8]? =
      some "  Entry point address:               0x7856341200000000" ∧
    (lines (main .big ["elf_header", "a.out"] (fun _ => .regular declaredLittle)).stdout)[8]? =
      some "  Entry point address:               0x7856341200000000" := by
  decide

/-- C5, as the code has it. For every file of at least 64 bytes that starts
with the magic bytes, whatever its class byte (offset 4) is, the Entry point
line shows the 8-byte field at offsets 24-31, a value below `2 ^ 64`, and it
stays the same when the class byte is replaced by any other value. -/
theorem C5_entry_is_eight_bytes (host : ByteOrder) (prog path : String)
    (fs : String → FileState) (content : List Byte) (hfs : fs path = .regular content)
    (hlen : 64 ≤ content.length) (hmag : content.take 4 = [0x7f, 0x45, 0x4c, 0x46]) :
    (lines (main host [prog, path] fs).stdout)[8]? =
        some ("  Entry point address:               " ++
          fmt_alt_lx (load host ((content.drop 24).take 8))) ∧
      ((content.drop 24).take 8).length = 8 ∧
      load host ((content.drop 24).take 8) < 2 ^ 64 ∧
      (∀ c : Byte,
        (lines (main host [prog, path] (fun _ => .regular (content.set 4 c))).stdout)[8]? =
          (lines (main host [prog, path] fs).stdout)[8]?) := by
  have hl8 : ((content.drop 24).take 8).length = 8 := by
    simp only [List.length_take, List.length_drop]; omega
  refine ⟨entry_line host prog path fs content hfs hlen hmag, hl8, ?_, fun c => ?_⟩
  · have := load_lt host ((content.drop 24).take 8)
    rw [hl8] at this
    exact this
  · exact entry_line_set host prog path fs content hfs hlen hmag 4 (by omega) (by omega) c

theorem C5_entry_is_eight_bytes_witness :
    64 ≤ (class32 [1, 0, 0, 0]).length ∧
    (class32 [1, 0, 0, 0]).take 4 = [0x7f, 0x45, 0x4c, 0x46] ∧
    ((lines (main .little ["elf_header", "a.out"]
          (fun _ => .regular (class32 [1, 0, 0, 0]))).stdout)[8]? =
        some ("  Entry point address:               " ++
          fmt_alt_lx (load .little (((class32 [1, 0, 0, 0]).drop 24).take 8))) ∧
      (((class32 [1, 0, 0, 0]).drop 24).take 8).length = 8 ∧
      load .little (((class32 [1, 0, 0, 0]).drop 24).take 8) < 2 ^ 64 ∧
      (∀ c : Byte,
        (lines (main .little ["elf_header", "a.out"]
            (fun _ => .regular ((class32 [1, 0, 0, 0]).set 4 c))).stdout)[8]? =
          (lines (main .little ["elf_header", "a.out"]
            (fun _ => .regular (class32 [1, 0, 0, 0]))).stdout)[8]?)) :=
  ⟨by decide, by decide,
    C5_entry_is_eight_bytes .little "elf_header" "a.out"
      (fun _ => .regular (class32 [1, 0, 0, 0])) (class32 [1, 0, 0, 0]) rfl (by decide)
      (by decide)⟩

/-- C5 fails as stated: on a little-endian machine a header of class 1
(32-bit) whose bytes 24-27 are zero and whose bytes 28-31 are `01 00 00 00`
has the entry point `0x100000000`, which is not below `2 ^ 32`, and its Entry
point line differs from that of the header with bytes 28-31 zero, from which
it differs in bytes 28-31 only. -/
theorem C5_counterexample :
    (class32 [1, 0, 0, 0]).getD 4 0 = 1 ∧ (class32 [0, 0, 0, 0]).getD 4 0 = 1 ∧
    (class32 [1, 0, 0, 0]).take 28 = (class32 [0, 0, 0, 0]).take 28 ∧
    (class32 [1, 0, 0, 0]).drop 32 = (class32 [0, 0, 0, 0]).drop 32 ∧
    (lines (main .little ["elf_header", "a.out"]
        (fun _ => .regular (class32 [1, 0, 0, 0]))).stdout)[8]? =
      some "  Entry point address:               0x100000000" ∧
    ¬ e_entry .little ((class32 [1, 0, 0, 0]).take 64) < 2 ^ 32 ∧
    (lines (main .little ["elf_header", "a.out"]
        (fun _ => .regular (class32 [1, 0, 0, 0]))).stdout)[8]? ≠
      (lines (main .little ["elf_header", "a.out"]
        (fun _ => .regular (class32 [0, 0, 0, 0]))).stdout)[8]? := by
  decide

/-! ## Claim C6: the length required -/

/-- C6, as the code has it. The length required does not depend on the
class: a file that starts with the magic bytes gets the read error exactly
when it has fewer than 64 bytes, and exit code 0 otherwise, whatever its
class byte is. -/
theorem C6_length_is_64 (host : ByteOrder) (prog path : String)
    (fs : String → FileState) (content : List Byte) (hfs : fs path = .regular content)
    (hmag : content.take 4 = [0x7f, 0x45, 0x4c, 0x46]) :
    (((main host [prog, path] fs).stderr = "Error: Can't read from file " ++ path ++ "\n" ∧
        (main host [prog, path] fs).exit_code = 98) ↔ content.length < 64) ∧
      ((main host [prog, path] fs).exit_code = 0 ↔ 64 ≤ content.length) := by
  rw [main_regular host prog path fs content hfs]
  by_cases hl : content.length < 64
  · rw [if_pos hl]
    exact ⟨⟨fun _ => hl, fun _ => ⟨rfl, rfl⟩⟩,
      ⟨fun h => absurd (show (98 : Nat) = 0 from h) (by decide), fun h => absurd hl (by omega)⟩⟩
  · rw [if_neg hl, if_neg (by simpa using hmag)]
    exact ⟨⟨fun h => absurd (show (0 : Nat) = 98 from h.2) (by decide), fun h => absurd h hl⟩,
      ⟨fun _ => by omega, fun _ => rfl⟩⟩

theorem C6_length_is_64_witness :
    ((class32 []).take 52).take 4 = [0x7f, 0x45, 0x4c, 0x46] ∧
    ((((main .little ["elf_header", "a.out"] (fun _ => .regular ((class32 []).take 52))).stderr =
          "Error: Can't read from file " ++ "a.out" ++ "\n" ∧
        (main .little ["elf_header", "a.out"]
          (fun _ => .regular ((class32 []).take 52))).exit_code = 98) ↔
        ((class32 []).take 52).length < 64) ∧
      ((main .little ["elf_header", "a.out"]
          (fun _ => .regular ((class32 []).take 52))).exit_code = 0 ↔
        64 ≤ ((class32 []).take 52).length)) :=
  ⟨by decide,
    C6_length_is_64 .little "elf_header" "a.out" (fun _ => .regular ((class32 []).take 52))
      ((class32 []).take 52) rfl (by decide)⟩

/-- C6 fails as stated: a file of exactly 52 bytes that starts with the magic
bytes and has class byte 1 is not decoded; the run ends with the read error
and exit code 98, and nothing is printed. -/
theorem C6_counterexample :
    ((class32 []).take 52).length = 52 ∧
    ((class32 []).take 52).take 4 = [0x7f, 0x45, 0x4c, 0x46] ∧
    ((class32 []).take 52).getD 4 0 = 1 ∧
    main .little ["elf_header", "a.out"] (fun _ => .regular ((class32 []).take 52)) =
      { stdout := "", stderr := "Error: Can't read from file a.out\n", exit_code := 98,
        calls := [.open "a.out", .read 64, .close] } ∧
    (main .little ["elf_header", "a.out"] (fun _ => .regular ((class32 []).take 52))).exit_code
      ≠ 0 := by
  decide

/-! ## Claims C7 and C8: exit status and error messages -/

theorem main_wrong_argc (host : ByteOrder) (argv : List String) (fs : String → FileState)
    (h : argv.length ≠ 2) :
    main host argv fs =
      { stdout := "", stderr := "Usage: elf_header elf_filename\n", exit_code := 98,
        calls := [] } := by
  unfold main
  rw [if_pos h]

theorem main_cannot_open (host : ByteOrder) (prog path : String) (fs : String → FileState)
    (hfs : fs path = .cannotOpen) :
    main host [prog, path] fs =
      { stdout := "", stderr := "Error: Can't open file " ++ path ++ "\n", exit_code := 98,
        calls := [.open path] } := by
  rw [main_two_args, hfs]

theorem main_cannot_read (host : ByteOrder) (prog path : String) (fs : String → FileState)
    (hfs : fs path = .cannotRead) :
    main host [prog, path] fs = readFailure path := by
  rw [main_two_args, hfs]

theorem argv_two (argv : List String) (h : argv.length = 2) :
    ∃ prog path, argv = [prog, path] := by
  match argv, h with
  | [prog, path], _ => exact ⟨prog, path, rfl⟩

/-- C7. For every invocation the exit code is 0 or 98, and it is 0 if and
only if the argument vector holds the program name and exactly one path, the
file opens, 64 bytes are read and the first four of them are the magic
bytes, whatever the other bytes are. -/
theorem C7_exit_status (host : ByteOrder) (argv : List String) (fs : String → FileState) :
    ((main host argv fs).exit_code = 0 ∨ (main host argv fs).exit_code = 98) ∧
      ((main host argv fs).exit_code = 0 ↔
        ∃ prog path content, argv = [prog, path] ∧ fs path = .regular content ∧
          64 ≤ content.length ∧ content.take 4 = [0x7f, 0x45, 0x4c, 0x46]) := by
  by_cases hargc : argv.length = 2
  · obtain ⟨prog, path, rfl⟩ := argv_two argv hargc
    cases hfs : fs path with
    | cannotOpen =>
      rw [main_cannot_open host prog path fs hfs]
      refine ⟨Or.inr rfl, fun h => absurd (show (98 : Nat) = 0 from h) (by decide), ?_⟩
      rintro ⟨p, q, c, he, hq, _⟩
      obtain ⟨-, rfl⟩ : prog = p ∧ path = q := by simpa using he
      rw [hfs] at hq; cases hq
    | cannotRead =>
      rw [main_cannot_read host prog path fs hfs]
      refine ⟨Or.inr rfl, fun h => absurd (show (98 : Nat) = 0 from h) (by decide), ?_⟩
      rintro ⟨p, q, c, he, hq, _⟩
      obtain ⟨-, rfl⟩ : prog = p ∧ path = q := by simpa using he
      rw [hfs] at hq; cases hq
    | regular content =>
      rw [main_regular host prog path fs content hfs]
      by_cases hl : content.length < 64
      · rw [if_pos hl]
        refine ⟨Or.inr rfl, fun h => absurd (show (98 : Nat) = 0 from h) (by decide), ?_⟩
        rintro ⟨p, q, c, he, hq, hc, _⟩
        obtain ⟨-, rfl⟩ : prog = p ∧ path = q := by simpa using he
        rw [hfs] at hq; cases hq; omega
      · rw [if_neg hl]
        by_cases hm : content.take 4 ≠ ELFMAG
        · rw [if_pos hm]
          refine ⟨Or.inr rfl, fun h => absurd (show (98 : Nat) = 0 from h) (by decide), ?_⟩
          rintro ⟨p, q, c, he, hq, _, hc⟩
          obtain ⟨-, rfl⟩ : prog = p ∧ path = q := by simpa using he
          rw [hfs] at hq; cases hq; exact absurd hc hm
        · rw [if_neg hm]
          exact ⟨Or.inl rfl, fun _ => ⟨prog, path, content, rfl, hfs, by omega,
            by simpa using hm⟩, fun _ => rfl⟩
  · rw [main_wrong_argc host argv fs hargc]
    refine ⟨Or.inr rfl, fun h => absurd (show (98 : Nat) = 0 from h) (by decide), ?_⟩
    rintro ⟨p, q, c, he, _⟩
    exact absurd (by rw [he]; rfl) hargc

/-- C8. A run that succeeds writes nothing to standard error. A run that
fails writes nothing to standard output, and standard error holds exactly the
message of the first check that fails: the usage message when the argument
count is not 2, else the open message when the file does not open, else the
read message when `read` fails or delivers fewer than 64 bytes, else the
not-an-ELF message when the first four bytes are not the magic bytes. -/
theorem C8_atomic_failure (host : ByteOrder) (argv : List String) (fs : String → FileState) :
    ((main host argv fs).exit_code = 0 → (main host argv fs).stderr = "") ∧
      ((main host argv fs).exit_code ≠ 0 →
        (main host argv fs).stdout = "" ∧
        ((argv.length ≠ 2 ∧ (main host argv fs).stderr = "Usage: elf_header elf_filename\n") ∨
          (∃ prog path, argv = [prog, path] ∧ fs path = .cannotOpen ∧
            (main host argv fs).stderr = "Error: Can't open file " ++ path ++ "\n") ∨
          (∃ prog path, argv = [prog, path] ∧
            (fs path = .cannotRead ∨ ∃ content, fs path = .regular content ∧ content.length < 64) ∧
            (main host argv fs).stderr = "Error: Can't read from file " ++ path ++ "\n") ∨
          (∃ prog path content, argv = [prog, path] ∧ fs path = .regular content ∧
            64 ≤ content.length ∧ content.take 4 ≠ [0x7f, 0x45, 0x4c, 0x46] ∧
            (main host argv fs).stderr = "Error: Not an ELF file - " ++ path ++ "\n"))) := by
  by_cases hargc : argv.length = 2
  · obtain ⟨prog, path, rfl⟩ := argv_two argv hargc
    cases hfs : fs path with
    | cannotOpen =>
      rw [main_cannot_open host prog path fs hfs]
      exact ⟨fun h => absurd (show (98 : Nat) = 0 from h) (by decide),
        fun _ => ⟨rfl, Or.inr (Or.inl ⟨prog, path, rfl, hfs, rfl⟩)⟩⟩
    | cannotRead =>
      rw [main_cannot_read host prog path fs hfs]
      exact ⟨fun h => absurd (show (98 : Nat) = 0 from h) (by decide),
        fun _ => ⟨rfl, Or.inr (Or.inr (Or.inl ⟨prog, path, rfl, Or.inl hfs, rfl⟩))⟩⟩
    | regular content =>
      rw [main_regular host prog path fs content hfs]
      by_cases hl : content.length < 64
      · rw [if_pos hl]
        exact ⟨fun h => absurd (show (98 : Nat) = 0 from h) (by decide),
          fun _ => ⟨rfl, Or.inr (Or.inr (Or.inl ⟨prog, path, rfl, Or.inr ⟨content, hfs, hl⟩,
            rfl⟩))⟩⟩
      · rw [if_neg hl]
        by_cases hm : content.take 4 ≠ ELFMAG
        · rw [if_pos hm]
          exact ⟨fun h => absurd (show (98 : Nat) = 0 from h) (by decide),
            fun _ => ⟨rfl, Or.inr (Or.inr (Or.inr ⟨prog, path, content, rfl, hfs, by omega, hm,
              rfl⟩))⟩⟩
        · rw [if_neg hm]
          exact ⟨fun _ => rfl, fun h => absurd rfl h⟩
  · rw [main_wrong_argc host argv fs hargc]
    exact ⟨fun h => absurd (show (98 : Nat) = 0 from h) (by decide),
      fun _ => ⟨rfl, Or.inl ⟨hargc, rfl⟩⟩⟩

/-! ## Claim C9: the Class line -/

theorem chomp_unknown (n : Nat) :
    chomp ("<unknown: " ++ fmt_x n ++ ">\n") = "<unknown: " ++ fmt_x n ++ ">" := by
  have e : "<unknown: " ++ fmt_x n ++ ">\n" = ("<unknown: " ++ fmt_x n ++ ">") ++ "\n" := by
    simp only [String.append_assoc]; rfl
  rw [e, chomp_newline]

theorem class_value (c : Byte) :
    chomp (print_class c) =
      if c.val = 0 then "none" else if c.val = 1 then "ELF32" else if c.val = 2 then "ELF64"
      else "<unknown: " ++ fmt_x c.val ++ ">" := by
  unfold print_class
  simp only [ELFCLASSNONE, ELFCLASS32, ELFCLASS64]
  split_ifs
  · decide
  · decide
  · decide
  · exact chomp_unknown _

/-- C9. For every file of at least 64 bytes that starts with the magic bytes
the run succeeds and the Class line is the label followed by `none` for
class byte 0, `ELF32` for 1, `ELF64` for 2, and for every other value `b` by
`<unknown: `, `b` in lowercase hexadecimal without padding, and `>`; class
byte 9 gives `<unknown: 9>`. -/
theorem C9_class_line (host : ByteOrder) (prog path : String)
    (fs : String → FileState) (content : List Byte) (hfs : fs path = .regular content)
    (hlen : 64 ≤ content.length) (hmag : content.take 4 = [0x7f, 0x45, 0x4c, 0x46]) :
    (main host [prog, path] fs).exit_code = 0 ∧
      (lines (main host [prog, path] fs).stdout)[2]? =
        some ("  Class:                             " ++
          (if (content.getD 4 0).val = 0 then "none"
          else if (content.getD 4 0).val = 1 then "ELF32"
          else if (content.getD 4 0).val = 2 then "ELF64"
          else "<unknown: " ++ fmt_x (content.getD 4 0).val ++ ">")) ∧
      ((content.getD 4 0).val = 9 →
        (lines (main host [prog, path] fs).stdout)[2]? =
          some "  Class:                             <unknown: 9>") := by
  have h2 : (lines (main host [prog, path] fs).stdout)[2]? =
      some ("  Class:                             " ++ chomp (print_class (content.getD 4 0))) := by
    rw [lines_valid host prog path fs content hfs hlen hmag]
    simp only [List.getElem?_cons_succ, List.getElem?_cons_zero]
  rw [class_value] at h2
  refine ⟨?_, h2, fun h9 => ?_⟩
  · rw [main_regular host prog path fs content hfs, if_neg (by omega),
      if_neg (by simpa using hmag)]
  · rw [h2, h9]; decide

theorem C9_class_line_witness :
    64 ≤ (sampleHeader 9 1 2 0 []).length ∧
    (sampleHeader 9 1 2 0 []).take 4 = [0x7f, 0x45, 0x4c, 0x46] ∧
    ((main .little ["elf_header", "a.out"]
        (fun _ => .regular (sampleHeader 9 1 2 0 []))).exit_code = 0 ∧
      (lines (main .little ["elf_header", "a.out"]
          (fun _ => .regular (sampleHeader 9 1 2 0 []))).stdout)[2]? =
        some ("  Class:                             " ++
          (if ((sampleHeader 9 1 2 0 []).getD 4 0).val = 0 then "none"
          else if ((sampleHeader 9 1 2 0 []).getD 4 0).val = 1 then "ELF32"
          else if ((sampleHeader 9 1 2 0 []).getD 4 0).val = 2 then "ELF64"
          else "<unknown: " ++ fmt_x ((sampleHeader 9 1 2 0 []).getD 4 0).val ++ ">")) ∧
      (((sampleHeader 9 1 2 0 []).getD 4 0).val = 9 →
        (lines (main .little ["elf_header", "a.out"]
            (fun _ => .regular (sampleHeader 9 1 2 0 []))).stdout)[2]? =
          some "  Class:                             <unknown: 9>")) :=
  ⟨by decide, by decide,
    C9_class_line .little "elf_header" "a.out" (fun _ => .regular (sampleHeader 9 1 2 0 []))
      (sampleHeader 9 1 2 0 []) rfl (by decide) (by decide)⟩

/-! ## Claim C10: the Entry point line -/

/-- For a nonzero entry point the line is the label, `0x` and the
hexadecimal digits. -/
theorem entry_line_nonzero (host : ByteOrder) (prog path : String) (fs : String → FileState)
    (content : List Byte) (hfs : fs path = .regular content) (hlen : 64 ≤ content.length)
    (hmag : content.take 4 = ELFMAG) (hv : load host ((content.drop 24).take 8) ≠ 0) :
    (lines (main host [prog, path] fs).stdout)[8]? =
      some ("  Entry point address:               " ++ "0x" ++
        fmt_x (load host ((content.drop 24).take 8))) := by
  rw [entry_line host prog path fs content hfs hlen hmag, fmt_alt_lx, if_neg hv,
    String.append_assoc]

/-- C10 at an entry point of zero. A relocatable object, whose entry bytes
are all zero, is accepted and its Entry point line is the label followed by
`0`, not by `0x0`, on a machine of either byte order; the executable with
entry bytes `20 10 40 00 00 00 00 00` gets `0x401020` on a little-endian
machine. -/
theorem C10_entry_zero :
    64 ≤ relocatable.length ∧ relocatable.take 4 = [0x7f, 0x45, 0x4c, 0x46] ∧
    (relocatable.drop 24).take 8 = [0, 0, 0, 0, 0, 0, 0, 0] ∧
    e_entry .little (relocatable.take 64) = 0 ∧
    (main .little ["elf_header", "a.o"] (fun _ => .regular relocatable)).exit_code = 0 ∧
    (lines (main .little ["elf_header", "a.o"] (fun _ => .regular relocatable)).stdout)[8]? =
      some "  Entry point address:               0" ∧
    (lines (main .little ["elf_header", "a.o"] (fun _ => .regular relocatable)).stdout)[8]? ≠
      some ("  Entry point address:               " ++ "0x" ++ fmt_x 0) ∧
    (lines (main .big ["elf_header", "a.o"] (fun _ => .regular relocatable)).stdout)[8]? =
      some "  Entry point address:               0" ∧
    (lines (main .little ["elf_header", "a.out"] (fun _ => .regular executable)).stdout)[8]? =
      some "  Entry point address:               0x401020" := by
  decide

/-! ## Claims C11, C12 and C13: the Version, Type and OS/ABI lines -/

theorem version_value (v : Byte) :
    chomp (print_version v) =
      if v.val = 0 then "0 (invalid)" else if v.val = 1 then "1 (current)" else fmt_d v.val := by
  unfold print_version
  simp only [EV_NONE, EV_CURRENT]
  split_ifs
  · decide
  · decide
  · exact chomp_newline _

theorem version_numeral (v : Byte) :
    (if v.val = 0 then "0 (invalid)" else if v.val = 1 then "1 (current)" else fmt_d v.val) =
      fmt_d v.val ++
        (if v.val = 0 then " (invalid)" else if v.val = 1 then " (current)" else "") := by
  split_ifs with h0 h1
  · rw [h0]; decide
  · rw [h1]; decide
  · rw [String.append_empty]

/-- C11. For every file of at least 64 bytes that starts with the magic
bytes, the Version line is the label followed by `1 (current)` when the
version byte (offset 6) is 1, by `0 (invalid)` when it is 0, and by the bare
decimal number of the byte otherwise; in all three cases the value begins
with the decimal numeral of the version byte. -/
theorem C11_version_line (host : ByteOrder) (prog path : String)
    (fs : String → FileState) (content : List Byte) (hfs : fs path = .regular content)
    (hlen : 64 ≤ content.length) (hmag : content.take 4 = [0x7f, 0x45, 0x4c, 0x46]) :
    (lines (main host [prog, path] fs).stdout)[4]? =
        some ("  Version:                           " ++
          (if (content.getD 6 0).val = 0 then "0 (invalid)"
          else if (content.getD 6 0).val = 1 then "1 (current)"
          else fmt_d (content.getD 6 0).val)) ∧
      (lines (main host [prog, path] fs).stdout)[4]? =
        some ("  Version:                           " ++
          (fmt_d (content.getD 6 0).val ++
            (if (content.getD 6 0).val = 0 then " (invalid)"
            else if (content.getD 6 0).val = 1 then " (current)"
            else ""))) := by
  have h4 : (lines (main host [prog, path] fs).stdout)[4]? =
      some ("  Version:                           " ++
        chomp (print_version (content.getD 6 0))) := by
    rw [lines_valid host prog path fs content hfs hlen hmag]
    simp only [List.getElem?_cons_succ, List.getElem?_cons_zero]
  rw [version_value] at h4
  refine ⟨h4, ?_⟩
  rw [h4, version_numeral]

theorem C11_version_line_witness :
    64 ≤ executable.length ∧ executable.take 4 = [0x7f, 0x45, 0x4c, 0x46] ∧
    ((lines (main .little ["elf_header", "a.out"] (fun _ => .regular executable)).stdout)[4]? =
        some ("  Version:                           " ++
          (if (executable.getD 6 0).val = 0 then "0 (invalid)"
          else if (executable.getD 6 0).val = 1 then "1 (current)"
          else fmt_d (executable.getD 6 0).val)) ∧
      (lines (main .little ["elf_header", "a.out"] (fun _ => .regular executable)).stdout)[4]? =
        some ("  Version:                           " ++
          (fmt_d (executable.getD 6 0).val ++
            (if (executable.getD 6 0).val = 0 then " (invalid)"
            else if (executable.getD 6 0).val = 1 then " (current)"
            else "")))) :=
  ⟨by decide, by decide,
    C11_version_line .little "elf_header" "a.out" (fun _ => .regular executable) executable rfl
      (by decide) (by decide)⟩

theorem type_value (t : Nat) :
    chomp (print_type t) =
      if t = 0 then "NONE (None)"
      else if t = 1 then "REL (Relocatable file)"
      else if t = 2 then "EXEC (Executable file)"
      else if t = 3 then "DYN (Shared object file)"
      else if t = 4 then "CORE (Core file)"
      else "<unknown: " ++ fmt_x t ++ ">" := by
  unfold print_type
  simp only [ET_NONE, ET_REL, ET_EXEC, ET_DYN, ET_CORE]
  split_ifs
  · decide
  · decide
  · decide
  · decide
  · decide
  · exact chomp_unknown _

/-- C12. For every file of at least 64 bytes that starts with the magic
bytes, the value `t` of `e_type` is a 16-bit number and the Type line is the
label followed by `NONE (None)`, `REL (Relocatable file)`,
`EXEC (Executable file)`, `DYN (Shared object file)` or `CORE (Core file)`
when `t` is 0, 1, 2, 3 or 4, and by `<unknown: `, `t` in lowercase
hexadecimal without padding, and `>` for every other `t`. -/
theorem C12_type_line (host : ByteOrder) (prog path : String)
    (fs : String → FileState) (content : List Byte) (hfs : fs path = .regular content)
    (hlen : 64 ≤ content.length) (hmag : content.take 4 = [0x7f, 0x45, 0x4c, 0x46]) :
    e_type host (content.take 64) < 2 ^ 16 ∧
      (lines (main host [prog, path] fs).stdout)[7]? =
        some ("  Type:                              " ++
          (if e_type host (content.take 64) = 0 then "NONE (None)"
          else if e_type host (content.take 64) = 1 then "REL (Relocatable file)"
          else if e_type host (content.take 64) = 2 then "EXEC (Executable file)"
          else if e_type host (content.take 64) = 3 then "DYN (Shared object file)"
          else if e_type host (content.take 64) = 4 then "CORE (Core file)"
          else "<unknown: " ++ fmt_x (e_type host (content.take 64)) ++ ">")) := by
  constructor
  · have hl2 : ((content.drop 16).take 2).length = 2 := by
      simp only [List.length_take, List.length_drop]; omega
    have := load_lt host ((content.drop 16).take 2)
    rw [hl2] at this
    rw [e_type_take]
    exact this
  · rw [lines_valid host prog path fs content hfs hlen hmag, e_type_take, ← type_value]
    simp only [List.getElem?_cons_succ, List.getElem?_cons_zero]

theorem C12_type_line_witness :
    64 ≤ declaredBig.length ∧ declaredBig.take 4 = [0x7f, 0x45, 0x4c, 0x46] ∧
    (e_type .little (declaredBig.take 64) < 2 ^ 16 ∧
      (lines (main .little ["elf_header", "a.out"] (fun _ => .regular declaredBig)).stdout)[7]? =
        some ("  Type:                              " ++
          (if e_type .little (declaredBig.take 64) = 0 then "NONE (None)"
          else if e_type .little (declaredBig.take 64) = 1 then "REL (Relocatable file)"
          else if e_type .little (declaredBig.take 64) = 2 then "EXEC (Executable file)"
          else if e_type .little (declaredBig.take 64) = 3 then "DYN (Shared object file)"
          else if e_type .little (declaredBig.take 64) = 4 then "CORE (Core file)"
          else "<unknown: " ++ fmt_x (e_type .little (declaredBig.take 64)) ++ ">"))) :=
  ⟨by decide, by decide,
    C12_type_line .little "elf_header" "a.out" (fun _ => .regular declaredBig) declaredBig rfl
      (by decide) (by decide)⟩

theorem osabi_value (o : Byte) :
    chomp (print_osabi o) =
      if o.val = 0 then "UNIX - System V"
      else if o.val = 1 then "UNIX - HP-UX"
      else if o.val = 2 then "UNIX - NetBSD"
      else if o.val = 3 then "UNIX - Linux"
      else if o.val = 6 then "UNIX - Solaris"
      else if o.val = 8 then "UNIX - IRIX"
      else if o.val = 9 then "UNIX - FreeBSD"
      else if o.val = 10 then "UNIX - TRU64"
      else if o.val = 97 then "ARM"
      else if o.val = 255 then "Standalone App"
      else "<unknown: " ++ fmt_x o.val ++ ">" := by
  unfold print_osabi
  simp only [ELFOSABI_NONE, ELFOSABI_HPUX, ELFOSABI_NETBSD, ELFOSABI_LINUX, ELFOSABI_SOLARIS,
    ELFOSABI_IRIX, ELFOSABI_FREEBSD, ELFOSABI_TRU64, ELFOSABI_ARM, ELFOSABI_STANDALONE]
  by_cases h0 : o.val = 0
  · rw [if_pos h0, if_pos h0]; decide
  rw [if_neg h0, if_neg h0]
  by_cases h1 : o.val = 1
  · rw [if_pos h1, if_pos h1]; decide
  rw [if_neg h1, if_neg h1]
  by_cases h2 : o.val = 2
  · rw [if_pos h2, if_pos h2]; decide
  rw [if_neg h2, if_neg h2]
  by_cases h3 : o.val = 3
  · rw [if_pos h3, if_pos h3]; decide
  rw [if_neg h3, if_neg h3]
  by_cases h6 : o.val = 6
  · rw [if_pos h6, if_pos h6]; decide
  rw [if_neg h6, if_neg h6]
  by_cases h8 : o.val = 8
  · rw [if_pos h8, if_pos h8]; decide
  rw [if_neg h8, if_neg h8]
  by_cases h9 : o.val = 9
  · rw [if_pos h9, if_pos h9]; decide
  rw [if_neg h9, if_neg h9]
  by_cases h10 : o.val = 10
  · rw [if_pos h10, if_pos h10]; decide
  rw [if_neg h10, if_neg h10]
  by_cases h97 : o.val = 97
  · rw [if_pos h97, if_pos h97]; decide
  rw [if_neg h97, if_neg h97]
  by_cases h255 : o.val = 255
  · rw [if_pos h255, if_pos h255]; decide
  rw [if_neg h255, if_neg h255]
  exact chomp_unknown _

set_option maxRecDepth 100000 in
theorem osabi_unknown_count :
    ((List.range 256).filter (fun b => b ∉ [0, 1, 2, 3, 6, 8, 9, 10, 97, 255])).length = 246 := by
  decide

/-- C13. For every file of at least 64 bytes that starts with the magic
bytes, the OS/ABI line is the label followed by the name of the OS/ABI byte
(offset 7) when it is 0, 1, 2, 3, 6, 8, 9, 10, 97 or 255, and by
`<unknown: `, the byte in lowercase hexadecimal, and `>` for each of the
other 246 values. -/
theorem C13_osabi_line (host : ByteOrder) (prog path : String)
    (fs : String → FileState) (content : List Byte) (hfs : fs path = .regular content)
    (hlen : 64 ≤ content.length) (hmag : content.take 4 = [0x7f, 0x45, 0x4c, 0x46]) :
    (lines (main host [prog, path] fs).stdout)[5]? =
        some ("  OS/ABI:                            " ++
          (if (content.getD 7 0).val = 0 then "UNIX - System V"
          else if (content.getD 7 0).val = 1 then "UNIX - HP-UX"
          else if (content.getD 7 0).val = 2 then "UNIX - NetBSD"
          else if (content.getD 7 0).val = 3 then "UNIX - Linux"
          else if (content.getD 7 0).val = 6 then "UNIX - Solaris"
          else if (content.getD 7 0).val = 8 then "UNIX - IRIX"
          else if (content.getD 7 0).val = 9 then "UNIX - FreeBSD"
          else if (content.getD 7 0).val = 10 then "UNIX - TRU64"
          else if (content.getD 7 0).val = 97 then "ARM"
          else if (content.getD 7 0).val = 255 then "Standalone App"
          else "<unknown: " ++ fmt_x (content.getD 7 0).val ++ ">")) ∧
      ((List.range 256).filter (fun b => b ∉ [0, 1, 2, 3, 6, 8, 9, 10, 97, 255])).length = 246 := by
  constructor
  · rw [lines_valid host prog path fs content hfs hlen hmag, ← osabi_value]
    simp only [List.getElem?_cons_succ, List.getElem?_cons_zero]
  · exact osabi_unknown_count

theorem C13_osabi_line_witness :
    64 ≤ (executable.set 7 0x61).length ∧
    (executable.set 7 0x61).take 4 = [0x7f, 0x45, 0x4c, 0x46] ∧
    ((lines (main .little ["elf_header", "a.out"]
          (fun _ => .regular (executable.set 7 0x61))).stdout)[5]? =
        some ("  OS/ABI:                            " ++
          (if ((executable.set 7 0x61).getD 7 0).val = 0 then "UNIX - System V"
          else if ((executable.set 7 0x61).getD 7 0).val = 1 then "UNIX - HP-UX"
          else if ((executable.set 7 0x61).getD 7 0).val = 2 then "UNIX - NetBSD"
          else if ((executable.set 7 0x61).getD 7 0).val = 3 then "UNIX - Linux"
          else if ((executable.set 7 0x61).getD 7 0).val = 6 then "UNIX - Solaris"
          else if ((executable.set 7 0x61).getD 7 0).val = 8 then "UNIX - IRIX"
          else if ((executable.set 7 0x61).getD 7 0).val = 9 then "UNIX - FreeBSD"
          else if ((executable.set 7 0x61).getD 7 0).val = 10 then "UNIX - TRU64"
          else if ((executable.set 7 0x61).getD 7 0).val = 97 then "ARM"
          else if ((executable.set 7 0x61).getD 7 0).val = 255 then "Standalone App"
          else "<unknown: " ++ fmt_x ((executable.set 7 0x61).getD 7 0).val ++ ">")) ∧
      ((List.range 256).filter (fun b => b ∉ [0, 1, 2, 3, 6, 8, 9, 10, 97, 255])).length = 246) :=
  ⟨by decide, by decide,
    C13_osabi_line .little "elf_header" "a.out" (fun _ => .regular (executable.set 7 0x61))
      (executable.set 7 0x61) rfl (by decide) (by decide)⟩

/-! ## Claims C17 and C18: the Data and ABI Version lines -/

theorem data_value (d : Byte) :
    chomp (print_data d) =
      if d.val = 0 then "none"
      else if d.val = 1 then "2's complement, little endian"
      else if d.val = 2 then "2's complement, big endian"
      else "<unknown: " ++ fmt_x d.val ++ ">" := by
  unfold print_data
  simp only [ELFDATANONE, ELFDATA2LSB, ELFDATA2MSB]
  split_ifs
  · decide
  · decide
  · decide
  · exact chomp_unknown _

/-- C17. For every file of at least 64 bytes that starts with the magic
bytes, the Data line is the label followed by `none` for data byte
(offset 5) 0, `2's complement, little endian` for 1,
`2's complement, big endian` for 2, and by `<unknown: `, the byte in
lowercase hexadecimal, and `>` for every other value. -/
theorem C17_data_line (host : ByteOrder) (prog path : String)
    (fs : String → FileState) (content : List Byte) (hfs : fs path = .regular content)
    (hlen : 64 ≤ content.length) (hmag : content.take 4 = [0x7f, 0x45, 0x4c, 0x46]) :
    (lines (main host [prog, path] fs).stdout)[3]? =
      some ("  Data:                              " ++
        (if (content.getD 5 0).val = 0 then "none"
        else if (content.getD 5 0).val = 1 then "2's complement, little endian"
        else if (content.getD 5 0).val = 2 then "2's complement, big endian"
        else "<unknown: " ++ fmt_x (content.getD 5 0).val ++ ">")) := by
  rw [lines_valid host prog path fs content hfs hlen hmag, ← data_value]
  simp only [List.getElem?_cons_succ, List.getElem?_cons_zero]

theorem C17_data_line_witness :
    64 ≤ declaredBig.length ∧ declaredBig.take 4 = [0x7f, 0x45, 0x4c, 0x46] ∧
    (lines (main .little ["elf_header", "a.out"] (fun _ => .regular declaredBig)).stdout)[3]? =
      some ("  Data:                              " ++
        (if (declaredBig.getD 5 0).val = 0 then "none"
        else if (declaredBig.getD 5 0).val = 1 then "2's complement, little endian"
        else if (declaredBig.getD 5 0).val = 2 then "2's complement, big endian"
        else "<unknown: " ++ fmt_x (declaredBig.getD 5 0).val ++ ">")) :=
  ⟨by decide, by decide,
    C17_data_line .little "elf_header" "a.out" (fun _ => .regular declaredBig) declaredBig rfl
      (by decide) (by decide)⟩

/-- C18. For every file of at least 64 bytes that starts with the magic
bytes, the ABI Version line is the label followed by the ABI-version byte
(offset 8) as a plain decimal number, for every value of the byte: the text
is the base-10 numeral of the byte, without a leading zero unless the byte
is zero. -/
theorem C18_abi_version_line (host : ByteOrder) (prog path : String)
    (fs : String → FileState) (content : List Byte) (hfs : fs path = .regular content)
    (hlen : 64 ≤ content.length) (hmag : content.take 4 = [0x7f, 0x45, 0x4c, 0x46]) :
    (lines (main host [prog, path] fs).stdout)[6]? =
        some ("  ABI Version:                       " ++ fmt_d (content.getD 8 0).val) ∧
      readDigits 10 (fmt_d (content.getD 8 0).val).data = some (content.getD 8 0).val ∧
      ((content.getD 8 0).val ≠ 0 → (fmt_d (content.getD 8 0).val).data.head? ≠ some '0') := by
  refine ⟨?_, (fmt_d_reads_back _).1, (fmt_d_reads_back _).2.1⟩
  rw [lines_valid host prog path fs content hfs hlen hmag]
  simp only [List.getElem?_cons_succ, List.getElem?_cons_zero]

theorem C18_abi_version_line_witness :
    64 ≤ (executable.set 8 200).length ∧
    (executable.set 8 200).take 4 = [0x7f, 0x45, 0x4c, 0x46] ∧
    ((lines (main .little ["elf_header", "a.out"]
          (fun _ => .regular (executable.set 8 200))).stdout)[6]? =
        some ("  ABI Version:                       " ++
          fmt_d ((executable.set 8 200).getD 8 0).val) ∧
      readDigits 10 (fmt_d ((executable.set 8 200).getD 8 0).val).data =
        some ((executable.set 8 200).getD 8 0).val ∧
      (((executable.set 8 200).getD 8 0).val ≠ 0 →
        (fmt_d ((executable.set 8 200).getD 8 0).val).data.head? ≠ some '0')) :=
  ⟨by decide, by decide,
    C18_abi_version_line .little "elf_header" "a.out" (fun _ => .regular (executable.set 8 200))
      (executable.set 8 200) rfl (by decide) (by decide)⟩

/-! ## Claim C14: the order of the lines -/

/-- The output for a header that passed the checks is its lines, each
followed by a newline, and nothing else. -/
theorem print_header_join (host : ByteOrder) (ehdr : List Byte) :
    print_header host ehdr =
      String.join ((lines (print_header host ehdr)).map (fun l => l ++ "\n")) := by
  rw [lines_print_header]
  obtain ⟨vm, hm, -⟩ := oneLine_print_magic ehdr
  obtain ⟨vc, hc, -⟩ := oneLine_print_class (e_ident ehdr EI_CLASS)
  obtain ⟨vd, hd, -⟩ := oneLine_print_data (e_ident ehdr EI_DATA)
  obtain ⟨vv, hv, -⟩ := oneLine_print_version (e_ident ehdr EI_VERSION)
  obtain ⟨vo, ho, -⟩ := oneLine_print_osabi (e_ident ehdr EI_OSABI)
  obtain ⟨vt, ht, -⟩ := oneLine_print_type (e_type host ehdr)
  have hb : "ELF Header:\n" = "ELF Header:" ++ "\n" := by decide
  unfold print_header
  rw [hm, hc, hd, hv, ho, ht, hb]
  simp only [chomp_newline, String.join, List.map_cons, List.map_nil, List.foldl_cons,
    List.foldl_nil, String.append_assoc, String.empty_append]

theorem magic_value (ehdr : List Byte) :
    chomp (print_magic ehdr) =
      "  Magic:   " ++
        (List.range EI_NIDENT).foldl
          (fun out i => out ++ fmt_02x (e_ident ehdr i).val ++ " ") "" := by
  unfold print_magic
  rw [chomp_newline]

/-- C14. For every file of at least 64 bytes that starts with the magic
bytes, standard output is nine lines, each ended by a newline: the banner
`ELF Header:` and then one line per field, each begun by its label, in the
order Magic, Class, Data, Version, OS/ABI, ABI Version, Type, Entry point
address. -/
theorem C14_line_order (host : ByteOrder) (prog path : String)
    (fs : String → FileState) (content : List Byte) (hfs : fs path = .regular content)
    (hlen : 64 ≤ content.length) (hmag : content.take 4 = [0x7f, 0x45, 0x4c, 0x46]) :
    (∃ magic cls data version osabi abi type entry : String,
      lines (main host [prog, path] fs).stdout =
        [ "ELF Header:",
          "  Magic:   " ++ magic,
          "  Class:                             " ++ cls,
          "  Data:                              " ++ data,
          "  Version:                           " ++ version,
          "  OS/ABI:                            " ++ osabi,
          "  ABI Version:                       " ++ abi,
          "  Type:                              " ++ type,
          "  Entry point address:               " ++ entry ]) ∧
      (lines (main host [prog, path] fs).stdout).length = 9 ∧
      (main host [prog, path] fs).stdout =
        String.join ((lines (main host [prog, path] fs).stdout).map (fun l => l ++ "\n")) := by
  have hl := lines_valid host prog path fs content hfs hlen hmag
  have hl2 := hl
  rw [magic_value] at hl2
  refine ⟨⟨_, _, _, _, _, _, _, _, hl2⟩, by rw [hl]; rfl, ?_⟩
  · rw [main_regular host prog path fs content hfs, if_neg (by omega),
      if_neg (by simpa using hmag)]
    exact print_header_join host _

theorem C14_line_order_witness :
    64 ≤ (sampleHeader 9 7 0xff 0xff []).length ∧
    (sampleHeader 9 7 0xff 0xff []).take 4 = [0x7f, 0x45, 0x4c, 0x46] ∧
    ((∃ magic cls data version osabi abi type entry : String,
      lines (main .little ["elf_header", "a.out"]
          (fun _ => .regular (sampleHeader 9 7 0xff 0xff []))).stdout =
        [ "ELF Header:",
          "  Magic:   " ++ magic,
          "  Class:                             " ++ cls,
          "  Data:                              " ++ data,
          "  Version:                           " ++ version,
          "  OS/ABI:                            " ++ osabi,
          "  ABI Version:                       " ++ abi,
          "  Type:                              " ++ type,
          "  Entry point address:               " ++ entry ]) ∧
      (lines (main .little ["elf_header", "a.out"]
          (fun _ => .regular (sampleHeader 9 7 0xff 0xff []))).stdout).length = 9 ∧
      (main .little ["elf_header", "a.out"]
          (fun _ => .regular (sampleHeader 9 7 0xff 0xff []))).stdout =
        String.join ((lines (main .little ["elf_header", "a.out"]
          (fun _ => .regular (sampleHeader 9 7 0xff 0xff []))).stdout).map
            (fun l => l ++ "\n"))) :=
  ⟨by decide, by decide,
    C14_line_order .little "elf_header" "a.out"
      (fun _ => .regular (sampleHeader 9 7 0xff 0xff [])) (sampleHeader 9 7 0xff 0xff []) rfl
      (by decide) (by decide)⟩

/-! ## Claim C15: the Magic line -/

theorem take_eq_map_range (l : List Byte) (n : Nat) (h : n ≤ l.length) :
    l.take n = (List.range n).map (fun i => l.getD i 0) := by
  apply List.ext_getElem?
  intro i
  by_cases hi : i < n
  · have hil : i < l.length := by omega
    rw [List.getElem?_take_of_lt hi, List.getElem?_map, List.getElem?_range hi]
    simp only [Option.map_some', List.getD_eq_getElem?_getD, List.getElem?_eq_getElem hil,
      Option.getD_some]
  · rw [List.getElem?_eq_none (by simp; omega), List.getElem?_eq_none (by simp; omega)]

theorem magic_loop_join (ehdr : List Byte) (h : 16 ≤ ehdr.length) :
    (List.range EI_NIDENT).foldl (fun out i => out ++ fmt_02x (e_ident ehdr i).val ++ " ") "" =
      String.join ((ehdr.take 16).map (fun b => fmt_02x b.val ++ " ")) := by
  rw [take_eq_map_range ehdr 16 h, String.join, List.foldl_map, List.foldl_map]
  apply List.foldl_ext
  intro out i _
  rw [String.append_assoc]
  rfl

theorem foldl_append_init (l : List String) :
    ∀ acc : String, l.foldl (fun r s => r ++ s) acc = acc ++ l.foldl (fun r s => r ++ s) "" := by
  induction l with
  | nil => intro acc; simp
  | cons s l ih =>
    intro acc
    rw [List.foldl_cons, List.foldl_cons, ih (acc ++ s), ih ("" ++ s), String.empty_append,
      String.append_assoc]

theorem join_cons (s : String) (l : List String) :
    String.join (s :: l) = s ++ String.join l := by
  rw [String.join, List.foldl_cons, foldl_append_init, String.empty_append]
  rfl

set_option maxRecDepth 100000 in
theorem fmt_02x_two_digits :
    ∀ b : Byte, (fmt_02x b.val).length = 2 ∧ readDigits 16 (fmt_02x b.val).data = some b.val := by
  decide

theorem magic_line (host : ByteOrder) (prog path : String) (fs : String → FileState)
    (content : List Byte) (hfs : fs path = .regular content) (hlen : 64 ≤ content.length)
    (hmag : content.take 4 = ELFMAG) :
    (lines (main host [prog, path] fs).stdout)[1]? =
      some ("  Magic:   " ++
        String.join ((content.take 16).map (fun b => fmt_02x b.val ++ " "))) := by
  rw [lines_valid host prog path fs content hfs hlen hmag, magic_value,
    magic_loop_join _ (by simp only [List.length_take]; omega), List.take_take]
  simp only [List.getElem?_cons_succ, List.getElem?_cons_zero]
  rfl

/-- C15, as the code has it. For every file of at least 64 bytes that starts
with the magic bytes, the Magic line is the label followed by the 16
identification bytes in file order, each written as exactly two lowercase
hexadecimal digits and each followed by one space, the last one too; the
line starts with the label and `7f 45 4c 46 `. -/
theorem C15_magic_line (host : ByteOrder) (prog path : String)
    (fs : String → FileState) (content : List Byte) (hfs : fs path = .regular content)
    (hlen : 64 ≤ content.length) (hmag : content.take 4 = [0x7f, 0x45, 0x4c, 0x46]) :
    (lines (main host [prog, path] fs).stdout)[1]? =
        some ("  Magic:   " ++
          String.join ((content.take 16).map (fun b => fmt_02x b.val ++ " "))) ∧
      (content.take 16).length = 16 ∧
      (∀ b : Byte,
        (fmt_02x b.val).length = 2 ∧ readDigits 16 (fmt_02x b.val).data = some b.val) ∧
      ∃ rest : String,
        (lines (main host [prog, path] fs).stdout)[1]? =
          some ("  Magic:   " ++ ("7f 45 4c 46 " ++ rest)) := by
  have h1 := magic_line host prog path fs content hfs hlen hmag
  refine ⟨h1, by simp only [List.length_take]; omega, fmt_02x_two_digits, ?_⟩
  match content, hlen, hmag, h1 with
  | a :: b :: c :: d :: rest, _, hmag, h1 =>
    obtain ⟨rfl, rfl, rfl, rfl⟩ : a = 0x7f ∧ b = 0x45 ∧ c = 0x4c ∧ d = 0x46 := by
      simpa using hmag
    refine ⟨String.join ((rest.take 12).map (fun b => fmt_02x b.val ++ " ")), ?_⟩
    rw [h1]
    simp only [List.take_succ_cons, List.map_cons, join_cons, ← String.append_assoc]
    rfl

theorem C15_magic_line_witness :
    64 ≤ executable.length ∧ executable.take 4 = [0x7f, 0x45, 0x4c, 0x46] ∧
    ((lines (main .little ["elf_header", "a.out"] (fun _ => .regular executable)).stdout)[1]? =
        some ("  Magic:   " ++
          String.join ((executable.take 16).map (fun b => fmt_02x b.val ++ " "))) ∧
      (executable.take 16).length = 16 ∧
      (∀ b : Byte,
        (fmt_02x b.val).length = 2 ∧ readDigits 16 (fmt_02x b.val).data = some b.val) ∧
      ∃ rest : String,
        (lines (main .little ["elf_header", "a.out"]
            (fun _ => .regular executable)).stdout)[1]? =
          some ("  Magic:   " ++ ("7f 45 4c 46 " ++ rest))) :=
  ⟨by decide, by decide,
    C15_magic_line .little "elf_header" "a.out" (fun _ => .regular executable) executable rfl
      (by decide) (by decide)⟩

/-- C15 fails as stated: the Magic line of the sample executable is not the
label followed by the 16 bytes separated by single spaces, which would end
in `00`; it ends in a space, written after the last byte. -/
theorem C15_counterexample :
    "  Magic:   " ++ " ".intercalate ((executable.take 16).map (fun b => fmt_02x b.val)) =
      "  Magic:   7f 45 4c 46 02 01 01 00 00 00 00 00 00 00 00 00" ∧
    (lines (main .little ["elf_header", "a.out"] (fun _ => .regular executable)).stdout)[1]? =
      some "  Magic:   7f 45 4c 46 02 01 01 00 00 00 00 00 00 00 00 00 " ∧
    (lines (main .little ["elf_header", "a.out"] (fun _ => .regular executable)).stdout)[1]? ≠
      some ("  Magic:   " ++
        " ".intercalate ((executable.take 16).map (fun b => fmt_02x b.val))) := by
  decide

/-! ## Claim C16: the usage error -/

/-- C16. For every argument vector whose length is not 2, that is with no
path or with two or more, the run writes `Usage: elf_header elf_filename`
and a newline to standard error and nothing to standard output, exits with
code 98 and makes no `open`, `read` or `close` call. -/
theorem C16_usage_error (host : ByteOrder) (argv : List String) (fs : String → FileState)
    (hargc : argv.length ≠ 2) :
    (main host argv fs).stderr = "Usage: elf_header elf_filename\n" ∧
      (main host argv fs).exit_code = 98 ∧
      (main host argv fs).calls = [] ∧
      (main host argv fs).stdout = "" := by
  rw [main_wrong_argc host argv fs hargc]
  exact ⟨rfl, rfl, rfl, rfl⟩

theorem C16_usage_error_witness :
    ["elf_header", "a.out", "b.out"].length ≠ 2 ∧
    (main .little ["elf_header", "a.out", "b.out"] (fun _ => .regular executable)).stderr =
      "Usage: elf_header elf_filename\n" ∧
    (main .little ["elf_header", "a.out", "b.out"] (fun _ => .regular executable)).exit_code
      = 98 ∧
    (main .little ["elf_header", "a.out", "b.out"] (fun _ => .regular executable)).calls = [] ∧
    (main .little ["elf_header", "a.out", "b.out"] (fun _ => .regular executable)).stdout = "" :=
  ⟨by decide,
    C16_usage_error .little ["elf_header", "a.out", "b.out"] (fun _ => .regular executable)
      (by decide)⟩

/-! ## Claims C19 and C20: what the output depends on -/

/-- Two contents that differ at offset `k` only: the second is the first with
byte `k` replaced. -/
theorem eq_set_of_differ_at (c1 c2 : List Byte) (k : Nat) (hk1 : k < c1.length)
    (hk2 : k < c2.length) (h : ∀ i, i ≠ k → c1[i]? = c2[i]?) :
    c2 = c1.set k (c2.getD k 0) := by
  apply List.ext_getElem?
  intro i
  by_cases hi : i = k
  · subst hi
    rw [List.getElem?_set_self hk1, List.getD_eq_getElem?_getD, List.getElem?_eq_getElem hk2,
      Option.getD_some]
  · rw [List.getElem?_set_ne (fun e => hi e.symm), h i hi]

theorem getD_set_ne (c : List Byte) (k i : Nat) (b : Byte) (h : k ≠ i) :
    (c.set k b).getD i 0 = c.getD i 0 := by
  rw [List.getD_eq_getElem?_getD, List.getD_eq_getElem?_getD, List.getElem?_set_ne h]

/-- The lines other than the Magic line and the line of the identification
byte replaced stay as they are. -/
theorem lines_set_ident (host : ByteOrder) (prog path : String) (content : List Byte)
    (hlen : 64 ≤ content.length) (hmag : content.take 4 = ELFMAG) (k : Nat) (hk : 4 ≤ k)
    (hk16 : k < 16) (b : Byte) (i : Nat) (h1 : i ≠ 1) (hi : i ≠ k - 2) (h8 : k ≤ 8) :
    (lines (main host [prog, path] (fun _ => .regular (content.set k b))).stdout)[i]? =
      (lines (main host [prog, path] (fun _ => .regular content)).stdout)[i]? := by
  obtain ⟨hl, hm⟩ := set_keeps_valid content k b hk hlen hmag
  rw [lines_valid host prog path (fun _ => .regular content) content rfl hlen hmag,
    lines_valid host prog path (fun _ => .regular (content.set k b)) _ rfl hl hm,
    List.drop_set_of_lt b content (show k < 16 by omega),
    List.drop_set_of_lt b content (show k < 24 by omega)]
  match i, h1, hi with
  | 0, _, _ => simp only [List.getElem?_cons_zero]
  | 2, _, hi =>
    simp only [List.getElem?_cons_succ, List.getElem?_cons_zero]
    rw [getD_set_ne content k 4 b (by omega)]
  | 3, _, hi =>
    simp only [List.getElem?_cons_succ, List.getElem?_cons_zero]
    rw [getD_set_ne content k 5 b (by omega)]
  | 4, _, hi =>
    simp only [List.getElem?_cons_succ, List.getElem?_cons_zero]
    rw [getD_set_ne content k 6 b (by omega)]
  | 5, _, hi =>
    simp only [List.getElem?_cons_succ, List.getElem?_cons_zero]
    rw [getD_set_ne content k 7 b (by omega)]
  | 6, _, hi =>
    simp only [List.getElem?_cons_succ, List.getElem?_cons_zero]
    rw [getD_set_ne content k 8 b (by omega)]
  | 7, _, _ => simp only [List.getElem?_cons_succ, List.getElem?_cons_zero]
  | 8, _, _ => simp only [List.getElem?_cons_succ, List.getElem?_cons_zero]
  | n + 9, _, _ => simp only [List.getElem?_cons_succ, List.getElem?_nil]

/-- The Magic line of a file with one identification byte replaced is the
Magic line of the file with the dump of that byte replaced. -/
theorem magic_line_set (host : ByteOrder) (prog path : String) (content : List Byte)
    (hlen : 64 ≤ content.length) (hmag : content.take 4 = ELFMAG) (k : Nat) (hk : 4 ≤ k)
    (b : Byte) :
    (lines (main host [prog, path] (fun _ => .regular (content.set k b))).stdout)[1]? =
      some ("  Magic:   " ++
        String.join
          (((content.take 16).map (fun x => fmt_02x x.val ++ " ")).set k
            (fmt_02x b.val ++ " "))) := by
  obtain ⟨hl, hm⟩ := set_keeps_valid content k b hk hlen hmag
  rw [magic_line host prog path (fun _ => .regular (content.set k b)) _ rfl hl hm,
    List.set_take, List.map_set]

/-- C19. Take a file of at least 64 bytes that starts with the magic bytes, a
second file that differs from it in the data-encoding byte (offset 5) only,
and a third that differs from it in the class byte (offset 4) only. All three
runs succeed. The output for the second file agrees with that for the first
on every line but the Magic line and the Data line; its Magic line is that of
the first with the dump of byte 5 alone replaced by the dump of the new byte,
and its Data line shows the new byte. The output for the third file agrees
with that for the first on every line but the Magic line and the Class line;
its Magic line is that of the first with the dump of byte 4 alone replaced,
and its Class line shows the new byte. The Type line and the Entry point
line are functions of bytes 16-17 and of bytes 24-31, read in the byte order
of the machine, and of nothing else. -/
theorem C19_ident_bytes_local (host : ByteOrder) (prog path : String) (c1 c2 c3 : List Byte)
    (hl1 : 64 ≤ c1.length) (hl2 : 64 ≤ c2.length) (hl3 : 64 ≤ c3.length)
    (hmag : c1.take 4 = [0x7f, 0x45, 0x4c, 0x46])
    (hd : ∀ i, i ≠ 5 → c1[i]? = c2[i]?) (hc : ∀ i, i ≠ 4 → c1[i]? = c3[i]?) :
    ((main host [prog, path] (fun _ => .regular c1)).exit_code = 0 ∧
        (main host [prog, path] (fun _ => .regular c2)).exit_code = 0 ∧
        (main host [prog, path] (fun _ => .regular c3)).exit_code = 0) ∧
      (lines (main host [prog, path] (fun _ => .regular c1)).stdout)[1]? =
        some ("  Magic:   " ++
          String.join ((c1.take 16).map (fun x => fmt_02x x.val ++ " "))) ∧
      ((∀ i, i ≠ 1 → i ≠ 3 →
          (lines (main host [prog, path] (fun _ => .regular c2)).stdout)[i]? =
            (lines (main host [prog, path] (fun _ => .regular c1)).stdout)[i]?) ∧
        (lines (main host [prog, path] (fun _ => .regular c2)).stdout)[1]? =
          some ("  Magic:   " ++
            String.join
              (((c1.take 16).map (fun x => fmt_02x x.val ++ " ")).set 5
                (fmt_02x (c2.getD 5 0).val ++ " "))) ∧
        (lines (main host [prog, path] (fun _ => .regular c2)).stdout)[3]? =
          some ("  Data:                              " ++
            chomp (print_data (c2.getD 5 0)))) ∧
      ((∀ i, i ≠ 1 → i ≠ 2 →
          (lines (main host [prog, path] (fun _ => .regular c3)).stdout)[i]? =
            (lines (main host [prog, path] (fun _ => .regular c1)).stdout)[i]?) ∧
        (lines (main host [prog, path] (fun _ => .regular c3)).stdout)[1]? =
          some ("  Magic:   " ++
            String.join
              (((c1.take 16).map (fun x => fmt_02x x.val ++ " ")).set 4
                (fmt_02x (c3.getD 4 0).val ++ " "))) ∧
        (lines (main host [prog, path] (fun _ => .regular c3)).stdout)[2]? =
          some ("  Class:                             " ++
            chomp (print_class (c3.getD 4 0)))) ∧
      (lines (main host [prog, path] (fun _ => .regular c1)).stdout)[7]? =
        some ("  Type:                              " ++
          chomp (print_type (load host ((c1.drop 16).take 2)))) ∧
      (lines (main host [prog, path] (fun _ => .regular c1)).stdout)[8]? =
        some ("  Entry point address:               " ++
          fmt_alt_lx (load host ((c1.drop 24).take 8))) := by
  have hv : ∀ c : List Byte, 64 ≤ c.length → c.take 4 = ELFMAG →
      (main host [prog, path] (fun _ => .regular c)).exit_code = 0 := by
    intro c hl hm
    rw [main_regular host prog path _ c rfl, if_neg (by omega), if_neg (by simpa using hm)]
  have hlines := lines_valid host prog path (fun _ => .regular c1) c1 rfl hl1 hmag
  have e2 := eq_set_of_differ_at c1 c2 5 (by omega) (by omega) hd
  have e3 := eq_set_of_differ_at c1 c3 4 (by omega) (by omega) hc
  obtain ⟨hs2, hm2⟩ := set_keeps_valid c1 5 (c2.getD 5 0) (by omega) hl1 hmag
  obtain ⟨hs3, hm3⟩ := set_keeps_valid c1 4 (c3.getD 4 0) (by omega) hl1 hmag
  rw [← e2] at hs2 hm2
  rw [← e3] at hs3 hm3
  have hlines2 := lines_valid host prog path (fun _ => .regular c2) c2 rfl hl2 hm2
  have hlines3 := lines_valid host prog path (fun _ => .regular c3) c3 rfl hl3 hm3
  refine ⟨⟨hv c1 hl1 hmag, hv c2 hl2 hm2, hv c3 hl3 hm3⟩,
    magic_line host prog path _ c1 rfl hl1 hmag, ⟨?_, ?_, ?_⟩, ⟨?_, ?_, ?_⟩, ?_, ?_⟩
  · intro i h1 h3
    have := lines_set_ident host prog path c1 hl1 hmag 5 (by omega) (by omega) (c2.getD 5 0) i
      h1 h3 (by omega)
    rwa [← e2] at this
  · have := magic_line_set host prog path c1 hl1 hmag 5 (by omega) (c2.getD 5 0)
    rwa [← e2] at this
  · rw [hlines2]; simp only [List.getElem?_cons_succ, List.getElem?_cons_zero]
  · intro i h1 h2
    have := lines_set_ident host prog path c1 hl1 hmag 4 (by omega) (by omega) (c3.getD 4 0) i
      h1 h2 (by omega)
    rwa [← e3] at this
  · have := magic_line_set host prog path c1 hl1 hmag 4 (by omega) (c3.getD 4 0)
    rwa [← e3] at this
  · rw [hlines3]; simp only [List.getElem?_cons_succ, List.getElem?_cons_zero]
  · rw [hlines]; simp only [List.getElem?_cons_succ, List.getElem?_cons_zero]
  · rw [hlines]; simp only [List.getElem?_cons_succ, List.getElem?_cons_zero]

theorem C19_ident_bytes_local_witness :
    64 ≤ executable.length ∧ 64 ≤ dataChanged.length ∧ 64 ≤ classChanged.length ∧
    executable.take 4 = [0x7f, 0x45, 0x4c, 0x46] ∧
    (∀ i, i ≠ 5 → executable[i]? = dataChanged[i]?) ∧
    (∀ i, i ≠ 4 → executable[i]? = classChanged[i]?) ∧
    executable.getD 5 0 ≠ dataChanged.getD 5 0 ∧
    executable.getD 4 0 ≠ classChanged.getD 4 0 ∧
    (lines (main .little ["elf_header", "a.out"] (fun _ => .regular executable)).stdout)[1]? =
      some "  Magic:   7f 45 4c 46 02 01 01 00 00 00 00 00 00 00 00 00 " ∧
    (lines (main .little ["elf_header", "a.out"] (fun _ => .regular dataChanged)).stdout)[1]? =
      some "  Magic:   7f 45 4c 46 02 02 01 00 00 00 00 00 00 00 00 00 " ∧
    (lines (main .little ["elf_header", "a.out"] (fun _ => .regular classChanged)).stdout)[1]? =
      some "  Magic:   7f 45 4c 46 01 01 01 00 00 00 00 00 00 00 00 00 " ∧
    (((main .little ["elf_header", "a.out"] (fun _ => .regular executable)).exit_code = 0 ∧
        (main .little ["elf_header", "a.out"] (fun _ => .regular dataChanged)).exit_code = 0 ∧
        (main .little ["elf_header", "a.out"] (fun _ => .regular classChanged)).exit_code = 0) ∧
      (lines (main .little ["elf_header", "a.out"] (fun _ => .regular executable)).stdout)[1]? =
        some ("  Magic:   " ++
          String.join ((executable.take 16).map (fun x => fmt_02x x.val ++ " "))) ∧
      ((∀ i, i ≠ 1 → i ≠ 3 →
          (lines (main .little ["elf_header", "a.out"]
              (fun _ => .regular dataChanged)).stdout)[i]? =
            (lines (main .little ["elf_header", "a.out"]
              (fun _ => .regular executable)).stdout)[i]?) ∧
        (lines (main .little ["elf_header", "a.out"]
            (fun _ => .regular dataChanged)).stdout)[1]? =
          some ("  Magic:   " ++
            String.join
              (((executable.take 16).map (fun x => fmt_02x x.val ++ " ")).set 5
                (fmt_02x (dataChanged.getD 5 0).val ++ " "))) ∧
        (lines (main .little ["elf_header", "a.out"]
            (fun _ => .regular dataChanged)).stdout)[3]? =
          some ("  Data:                              " ++
            chomp (print_data (dataChanged.getD 5 0)))) ∧
      ((∀ i, i ≠ 1 → i ≠ 2 →
          (lines (main .little ["elf_header", "a.out"]
              (fun _ => .regular classChanged)).stdout)[i]? =
            (lines (main .little ["elf_header", "a.out"]
              (fun _ => .regular executable)).stdout)[i]?) ∧
        (lines (main .little ["elf_header", "a.out"]
            (fun _ => .regular classChanged)).stdout)[1]? =
          some ("  Magic:   " ++
            String.join
              (((executable.take 16).map (fun x => fmt_02x x.val ++ " ")).set 4
                (fmt_02x (classChanged.getD 4 0).val ++ " "))) ∧
        (lines (main .little ["elf_header", "a.out"]
            (fun _ => .regular classChanged)).stdout)[2]? =
          some ("  Class:                             " ++
            chomp (print_class (classChanged.getD 4 0)))) ∧
      (lines (main .little ["elf_header", "a.out"] (fun _ => .regular executable)).stdout)[7]? =
        some ("  Type:                              " ++
          chomp (print_type (load .little ((executable.drop 16).take 2)))) ∧
      (lines (main .little ["elf_header", "a.out"] (fun _ => .regular executable)).stdout)[8]? =
        some ("  Entry point address:               " ++
          fmt_alt_lx (load .little ((executable.drop 24).take 8)))) :=
  ⟨by decide, by decide, by decide, by decide,
    fun _ h => (List.getElem?_set_ne (Ne.symm h)).symm,
    fun _ h => (List.getElem?_set_ne (Ne.symm h)).symm,
    by decide, by decide, by decide, by decide, by decide,
    C19_ident_bytes_local .little "elf_header" "a.out" executable dataChanged classChanged
      (by decide) (by decide) (by decide) (by decide)
      (fun _ h => (List.getElem?_set_ne (Ne.symm h)).symm)
      (fun _ h => (List.getElem?_set_ne (Ne.symm h)).symm)⟩

theorem getD_take_lt (l : List Byte) (n i : Nat) (h : i < n) :
    (l.take n).getD i 0 = l.getD i 0 := by
  rw [List.getD_eq_getElem?_getD, List.getD_eq_getElem?_getD, List.getElem?_take_of_lt h]

/-- The text printed for a header is decided by bytes 0-17 and 24-31. -/
theorem print_header_congr (host : ByteOrder) (c1 c2 : List Byte)
    (h18 : c1.take 18 = c2.take 18) (h24 : (c1.drop 24).take 8 = (c2.drop 24).take 8) :
    print_header host (c1.take 64) = print_header host (c2.take 64) := by
  have g : ∀ i, i < 18 → c1.getD i 0 = c2.getD i 0 := by
    intro i hi
    rw [← getD_take_lt c1 18 i hi, ← getD_take_lt c2 18 i hi, h18]
  have ht : (c1.drop 16).take 2 = (c2.drop 16).take 2 := by
    have := congrArg (List.drop 16) h18
    rwa [List.drop_take, List.drop_take] at this
  have hloop :
      (List.range EI_NIDENT).foldl
          (fun out i => out ++ fmt_02x (e_ident (c1.take 64) i).val ++ " ") "" =
        (List.range EI_NIDENT).foldl
          (fun out i => out ++ fmt_02x (e_ident (c2.take 64) i).val ++ " ") "" := by
    apply List.foldl_ext
    intro out i hi
    have hi16 : i < 16 := by simpa [EI_NIDENT] using hi
    rw [e_ident_take c1 i (by omega), e_ident_take c2 i (by omega), g i (by omega)]
  have hm : print_magic (c1.take 64) = print_magic (c2.take 64) := by
    unfold print_magic
    rw [hloop]
  unfold print_header
  simp only [EI_CLASS, EI_DATA, EI_VERSION, EI_OSABI, EI_ABIVERSION]
  rw [hm, e_ident_take c1 4 (by omega), e_ident_take c1 5 (by omega),
    e_ident_take c1 6 (by omega), e_ident_take c1 7 (by omega), e_ident_take c1 8 (by omega),
    e_ident_take c2 4 (by omega), e_ident_take c2 5 (by omega),
    e_ident_take c2 6 (by omega), e_ident_take c2 7 (by omega), e_ident_take c2 8 (by omega),
    e_type_take, e_type_take, e_entry_take, e_entry_take, ht, h24,
    g 4 (by omega), g 5 (by omega), g 6 (by omega), g 7 (by omega), g 8 (by omega)]

/-- C20. For the same path, two file contents of at least 64 bytes that
agree on bytes 0-17 and on bytes 24-31 give the same standard output, the
same standard error and the same exit code. -/
theorem C20_displayed_fields_only (host : ByteOrder) (prog path : String)
    (fs1 fs2 : String → FileState) (c1 c2 : List Byte)
    (hfs1 : fs1 path = .regular c1) (hfs2 : fs2 path = .regular c2)
    (hl1 : 64 ≤ c1.length) (hl2 : 64 ≤ c2.length)
    (h18 : c1.take 18 = c2.take 18) (h24 : (c1.drop 24).take 8 = (c2.drop 24).take 8) :
    (main host [prog, path] fs1).stdout = (main host [prog, path] fs2).stdout ∧
      (main host [prog, path] fs1).stderr = (main host [prog, path] fs2).stderr ∧
      (main host [prog, path] fs1).exit_code = (main host [prog, path] fs2).exit_code := by
  have t4 : c1.take 4 = c2.take 4 := by
    have := congrArg (List.take 4) h18
    rwa [List.take_take, List.take_take] at this
  have e : main host [prog, path] fs1 = main host [prog, path] fs2 := by
    rw [main_regular host prog path fs1 c1 hfs1, main_regular host prog path fs2 c2 hfs2,
      if_neg (show ¬ c1.length < 64 by omega), if_neg (show ¬ c2.length < 64 by omega), t4,
      print_header_congr host c1 c2 h18 h24]
  rw [e]
  exact ⟨rfl, rfl, rfl⟩

theorem C20_displayed_fields_only_witness :
    64 ≤ executable.length ∧
    64 ≤ (((executable.set 20 0xff).set 40 0xaa) ++ [1, 2, 3]).length ∧
    executable.take 18 = (((executable.set 20 0xff).set 40 0xaa) ++ [1, 2, 3]).take 18 ∧
    (executable.drop 24).take 8 =
      ((((executable.set 20 0xff).set 40 0xaa) ++ [1, 2, 3]).drop 24).take 8 ∧
    executable ≠ ((executable.set 20 0xff).set 40 0xaa) ++ [1, 2, 3] ∧
    ((main .little ["elf_header", "a.out"] (fun _ => .regular executable)).stdout =
        (main .little ["elf_header", "a.out"]
          (fun _ => .regular (((executable.set 20 0xff).set 40 0xaa) ++ [1, 2, 3]))).stdout ∧
      (main .little ["elf_header", "a.out"] (fun _ => .regular executable)).stderr =
        (main .little ["elf_header", "a.out"]
          (fun _ => .regular (((executable.set 20 0xff).set 40 0xaa) ++ [1, 2, 3]))).stderr ∧
      (main .little ["elf_header", "a.out"] (fun _ => .regular executable)).exit_code =
        (main .little ["elf_header", "a.out"]
          (fun _ => .regular
            (((executable.set 20 0xff).set 40 0xaa) ++ [1, 2, 3]))).exit_code) :=
  ⟨by decide, by decide, by decide, by decide, by decide,
    C20_displayed_fields_only .little "elf_header" "a.out" (fun _ => .regular executable)
      (fun _ => .regular (((executable.set 20 0xff).set 40 0xaa) ++ [1, 2, 3])) executable
      (((executable.set 20 0xff).set 40 0xaa) ++ [1, 2, 3]) rfl rfl (by decide) (by decide)
      (by decide) (by decide)⟩

end ElfHeader
